import Mathlib

/-!
Token cache and refresh engine of the Athenz SIA token daemon.

A shallow embedding of `pkg/token/daemon.go`: the daemon constructor
`newDaemon`, one refresh cycle `fetchTokensAndUpdateCaches`, the file
materializer `writeFiles`, the wrappers `updateToken` and
`updateTokenWithRetry`, and the synchronous part of `Tokend`.

Go strings are embedded as `String` (configuration text) or as byte lists
(raw token material). A Go `error` result is `Option Err`: `none` is `nil`.
Calls that leave the process (issuer fetches, disk writes) are answered by an
`Outcomes` record, one per attempt of `updateToken`; library and sibling-file
functions whose bodies are not part of `daemon.go` are the fields of `Env`.
-/

namespace token

/-- A Go error value, identified with its message. -/
abbrev Err := String

/-- Raw token material: a Go string seen as its bytes. -/
abbrev Bytes := List UInt8

/-! ## Data model -/

/-- Modelled from the spec: the declaration of `CacheKey` is outside `daemon.go`. The spec gives
`{Domain, Role, MinExpiry, MaxExpiry}` with the full tuple as identity; an expiry
bound that a struct literal leaves out is the Go zero value `0`. -/
structure CacheKey where
  Domain : String
  Role : String
  MinExpiry : Int := 0
  MaxExpiry : Int := 0
deriving DecidableEq, Repr

/-- The access-token variant, with the fields of the struct literal in `test.go`;
the defaults are the Go zero values, so `{}` is `&AccessToken{}`. -/
structure AccessToken where
  domain : String := ""
  role : String := ""
  raw : Bytes := []
  scope : String := ""
  expiry : Int := 0
deriving DecidableEq, Repr

/-- The role-token variant, with the fields of the struct literal in `test.go`. -/
structure RoleToken where
  domain : String := ""
  role : String := ""
  raw : Bytes := []
  expiry : Int := 0
deriving DecidableEq, Repr

/-- The `Token` interface, as the sum of its two implementations. -/
inductive Token where
  | access (t : AccessToken)
  | role (t : RoleToken)
deriving DecidableEq, Repr

/-- Accessor `Domain()` of the interface. -/
def Token.Domain : Token → String
  | .access t => t.domain
  | .role t => t.domain

/-- Accessor `Role()` of the interface. -/
def Token.Role : Token → String
  | .access t => t.role
  | .role t => t.role

/-- Accessor `Raw()` of the interface. -/
def Token.Raw : Token → Bytes
  | .access t => t.raw
  | .role t => t.raw

/-- Accessor `Expiry()` of the interface. -/
def Token.Expiry : Token → Int
  | .access t => t.expiry
  | .role t => t.expiry

/-! ## TokenCache -/

/-- Upsert on the entry list of a cache: the value of an existing key is replaced
in place, a new key is appended. -/
def storeEntries (k : CacheKey) (t : Token) :
    List (CacheKey × Token) → List (CacheKey × Token)
  | [] => [(k, t)]
  | e :: rest => if e.1 = k then (k, t) :: rest else e :: storeEntries k t rest

/-- Modelled from the spec: the locked token cache is declared outside `daemon.go`. It is a
mapping `CacheKey → Token`: a list of entries with pairwise distinct keys. The
iteration order of the Go map is unspecified; the model iterates in order of
first insertion. Locking has no counterpart in a sequential model. -/
structure TokenCache where
  entries : List (CacheKey × Token)
  nodup : (entries.map Prod.fst).Nodup

instance : DecidableEq TokenCache := fun a b =>
  decidable_of_iff (a.entries = b.entries) (by cases a; cases b; simp)

/-- Constructor `NewLockedTokenCache()`: the empty mapping. -/
def NewLockedTokenCache : TokenCache := ⟨[], List.nodup_nil⟩

/-- Operation `Store(key, token)`: upsert, last write wins, always succeeds. -/
def TokenCache.Store (c : TokenCache) (k : CacheKey) (t : Token) : TokenCache :=
  ⟨storeEntries k t c.entries, by
    have key : ∀ l : List (CacheKey × Token), (l.map Prod.fst).Nodup →
        (∀ x, x ∈ (storeEntries k t l).map Prod.fst → x = k ∨ x ∈ l.map Prod.fst) ∧
        ((storeEntries k t l).map Prod.fst).Nodup := by
      intro l
      induction l with
      | nil => intro _; simp [storeEntries]
      | cons e rest ih =>
        intro h
        rw [List.map_cons, List.nodup_cons] at h
        obtain ⟨ih1, ih2⟩ := ih h.2
        by_cases hk : e.1 = k
        · simp only [storeEntries, hk, if_true, List.map_cons, List.nodup_cons]
          refine ⟨fun x hx => ?_, ?_, h.2⟩
          · rcases List.mem_cons.1 hx with hx | hx
            · exact Or.inl hx
            · exact Or.inr (List.mem_cons_of_mem _ hx)
          · rw [← hk]; exact h.1
        · simp only [storeEntries, hk, if_false, List.map_cons, List.nodup_cons]
          refine ⟨fun x hx => ?_, ?_, ih2⟩
          · rcases List.mem_cons.1 hx with hx | hx
            · exact Or.inr (hx ▸ List.mem_cons_self _ _)
            · rcases ih1 x hx with hx | hx
              · exact Or.inl hx
              · exact Or.inr (List.mem_cons_of_mem _ hx)
          · intro hmem
            rcases ih1 _ hmem with hx | hx
            · exact hk hx
            · exact h.1 hx
    exact (key c.entries c.nodup).2⟩

/-- Operation `Keys()`: snapshot of the key set. -/
def TokenCache.Keys (c : TokenCache) : List CacheKey := c.entries.map Prod.fst

/-- Operation `Len()`: number of entries. -/
def TokenCache.Len (c : TokenCache) : Nat := c.entries.length

/-- Operation `Size()`: sum of `len(Raw())` over all entries. -/
def TokenCache.Size (c : TokenCache) : Nat := (c.entries.map fun e => e.2.Raw.length).sum

/-- Fail-fast traversal of an entry list: `visit` runs on one entry after the other,
threading the visitor's side effects `S`; the first error stops the traversal and
is returned. -/
def rangeEntries {S : Type} (visit : CacheKey → Token → S → Option Err × S) :
    List (CacheKey × Token) → S → Option Err × S
  | [], s => (none, s)
  | e :: rest, s =>
    match visit e.1 e.2 s with
    | (some err, s1) => (some err, s1)
    | (none, s1) => rangeEntries visit rest s1

/-- Operation `Range(visit)`: iteration over a snapshot of the entries. -/
def TokenCache.Range {S : Type} (c : TokenCache)
    (visit : CacheKey → Token → S → Option Err × S) (s : S) : Option Err × S :=
  rangeEntries visit c.entries s

/-- Read accessor of the mapping: the token stored under a key, if any. -/
def TokenCache.Load (c : TokenCache) (k : CacheKey) : Option Token :=
  (c.entries.find? fun e => decide (e.1 = k)).map Prod.snd

/-- A sequence of `Store` calls, in order. -/
def storeAll (c : TokenCache) (kts : List (CacheKey × Token)) : TokenCache :=
  kts.foldl (fun acc kt => acc.Store kt.1 kt.2) c

/-! ## Collaborators outside `daemon.go` -/

/-- Handle of the issuer client built by `newZTSClient`; the daemon only passes it on. -/
structure ZTSClient where
  handle : Nat
deriving DecidableEq, Repr

/-- Handle of a TLS configuration built by `NewTLSConfig`. -/
structure TLSConfig where
  handle : Nat
deriving DecidableEq, Repr

/-- One file of the token directory: path, permission bits, contents. -/
structure File where
  path : String
  perm : Nat
  contents : Bytes
deriving DecidableEq, Repr

/-- The fields of `config.IdentityConfig` that `daemon.go` reads. Durations are in
nanoseconds, as `time.Duration`. -/
structure IdentityConfig where
  Init : Bool := false
  KeyFile : String := ""
  CertFile : String := ""
  ServerCACert : String := ""
  Endpoint : String := ""
  ServiceAccount : String := ""
  TargetDomainRoles : String := ""
  TokenType : String := ""
  TokenExpiry : Int := 0
  TokenRefresh : Int := 0
  TokenDir : String := ""
  TokenServerAddr : String := ""
  TokenServerRESTAPI : Bool := false
  TokenServerTimeout : Int := 0
  TokenServerTLSCAPath : String := ""
  TokenServerTLSCertPath : String := ""
  TokenServerTLSKeyPath : String := ""
  RoleAuthHeader : String := ""
  ShutdownDelay : Int := 0
  ShutdownTimeout : Int := 0

/-- Deterministic functions and constants that `daemon.go` uses and that are declared
elsewhere (the Athenz utility library, the Go standard library, sibling files of the
package). They are parameters: every theorem holds for all of them.
`Seconds d` stands for `int(d.Seconds())`, a floating-point conversion. -/
structure Env where
  SplitRoleName : String → Except Err (String × String)
  newZTSClient : String → String → String → String → Except Err ZTSClient
  ServiceAccountToService : String → String
  newType : String → Nat
  mACCESS_TOKEN : Nat
  mROLE_TOKEN : Nat
  Seconds : Int → Int
  filepathJoin : String → String → String
  NewTLSConfig : String → String → String → Except Err TLSConfig

/-- The answers of the outside world during one attempt of `updateToken`: what the
issuer returns for each target (`fetchAccessToken`, `fetchRoleToken`), and whether
the file writer's `AddBytes` and `Save` hit an I/O error. -/
structure Outcomes where
  fetchAccessToken : ZTSClient → CacheKey → String → Except Err AccessToken
  fetchRoleToken : ZTSClient → CacheKey → Except Err RoleToken
  AddBytes : String → Nat → Bytes → Option Err
  Save : List File → Option Err

/-- Calls observed while the daemon runs, in the order in which they are made. -/
inductive Event where
  | fetchAccessToken (key : CacheKey)
  | fetchRoleToken (key : CacheKey)
  | storeAccessToken (key : CacheKey) (t : Token)
  | storeRoleToken (key : CacheKey) (t : Token)
  | addBytes (f : File)
  | save (staged : List File)
  | goServe (addr : String) (tls : Option TLSConfig)
  | goRefresh
  | goReport
deriving DecidableEq, Repr

/-- Does the event record an issuer fetch. -/
def Event.isFetch : Event → Bool
  | .fetchAccessToken _ => true
  | .fetchRoleToken _ => true
  | _ => false

/-- Does the event record a cache `Store`. -/
def Event.isStore : Event → Bool
  | .storeAccessToken _ _ => true
  | .storeRoleToken _ _ => true
  | _ => false

/-- Embedding of `strings.Split` for a one-byte separator, on the characters. -/
def splitChars (sep : Char) : List Char → List (List Char)
  | [] => [[]]
  | c :: cs =>
    if c = sep then [] :: splitChars sep cs
    else
      match splitChars sep cs with
      | [] => [[c]]
      | h :: t => (c :: h) :: t

/-- Library call `strings.Split(s, sep)` for a one-byte separator. -/
def stringsSplit (s : String) (sep : Char) : List String :=
  (splitChars sep s.data).map String.mk

/-! ## The daemon -/

/-- The struct `daemon`. -/
structure daemon where
  accessTokenCache : TokenCache
  roleTokenCache : TokenCache
  ztsClient : ZTSClient
  saService : String
  tokenRESTAPI : Bool
  tokenType : Nat
  tokenDir : String
  tokenRefresh : Int
  tokenExpiryInSecond : Int
  roleAuthHeader : String
deriving DecidableEq

/-- Body of the loop `for _, dr := range targets` of `newDaemon`: the first target
that `SplitRoleName` rejects ends construction with an error, every other target
gets a placeholder in the cache of each enabled kind. -/
def newDaemonTargets (env : Env) (idConfig : IdentityConfig) (tt : Nat)
    (tokenExpiryInSecond : Int) :
    List String → TokenCache × TokenCache → Except Err (TokenCache × TokenCache)
  | [], caches => .ok caches
  | dr :: rest, caches =>
    match env.SplitRoleName dr with
    | .error err =>
      .error ("Invalid TargetDomainRoles[" ++ idConfig.TargetDomainRoles ++ "]: " ++ err)
    | .ok (domain, role) =>
      let accessTokenCache :=
        if tt &&& env.mACCESS_TOKEN ≠ 0 then
          caches.1.Store { Domain := domain, Role := role, MaxExpiry := tokenExpiryInSecond }
            (.access {})
        else caches.1
      let roleTokenCache :=
        if tt &&& env.mROLE_TOKEN ≠ 0 then
          caches.2.Store { Domain := domain, Role := role, MinExpiry := tokenExpiryInSecond }
            (.role {})
        else caches.2
      newDaemonTargets env idConfig tt tokenExpiryInSecond rest (accessTokenCache, roleTokenCache)

/-- The two caches after the placeholder phase of `newDaemon` (lines 61 to 78). -/
def newDaemonCaches (env : Env) (idConfig : IdentityConfig) (tt : Nat) :
    Except Err (TokenCache × TokenCache) :=
  let tokenExpiryInSecond := env.Seconds idConfig.TokenExpiry
  let accessTokenCache := NewLockedTokenCache
  let roleTokenCache := NewLockedTokenCache
  let targets := stringsSplit idConfig.TargetDomainRoles ','
  if idConfig.TargetDomainRoles ≠ "" ∨ targets.length ≠ 1 then
    newDaemonTargets env idConfig tt tokenExpiryInSecond targets (accessTokenCache, roleTokenCache)
  else .ok (accessTokenCache, roleTokenCache)

/-- The four gauges that `newDaemon` registers: name, label `type`, and the value the
gauge function reads from the caches at scrape time (before the conversion to
`float64`). -/
def gauges (accessTokenCache roleTokenCache : TokenCache) : List (String × String × Nat) :=
  [("cached_token_bytes", "accesstoken", accessTokenCache.Size),
   ("cached_token_bytes", "roletoken", roleTokenCache.Size),
   ("cached_token_entries", "accesstoken", accessTokenCache.Len),
   ("cached_token_entries", "roletoken", roleTokenCache.Len)]

/-- Function `newDaemon(idConfig, tt)`. -/
def newDaemon (env : Env) (idConfig : IdentityConfig) (tt : Nat) : Except Err daemon :=
  match newDaemonCaches env idConfig tt with
  | .error err => .error err
  | .ok (accessTokenCache, roleTokenCache) =>
    match env.newZTSClient idConfig.KeyFile idConfig.CertFile idConfig.ServerCACert
        idConfig.Endpoint with
    | .error err => .error err
    | .ok ztsClient =>
      .ok {
        accessTokenCache := accessTokenCache
        roleTokenCache := roleTokenCache
        ztsClient := ztsClient
        saService := env.ServiceAccountToService idConfig.ServiceAccount
        tokenRESTAPI := idConfig.TokenServerRESTAPI
        tokenType := tt
        tokenDir := idConfig.TokenDir
        tokenRefresh := idConfig.TokenRefresh
        tokenExpiryInSecond := env.Seconds idConfig.TokenExpiry
        roleAuthHeader := idConfig.RoleAuthHeader }

/-! ## The transactional file writer -/

/-- Modelled from the spec: the multi-file writer of `third_party/util` is outside `daemon.go`.
The spec describes it as transactional: writes are staged, then committed together. -/
structure Writer where
  staged : List File
deriving DecidableEq, Repr

/-- Constructor `util.NewWriter()`: nothing staged. -/
def NewWriter : Writer := ⟨[]⟩

/-- Method `w.AddBytes(path, perm, contents)`: stage one write; on an I/O error nothing
is staged for this call. -/
def Writer.AddBytes (out : Outcomes) (w : Writer) (path : String) (perm : Nat)
    (contents : Bytes) : Option Err × Writer :=
  match out.AddBytes path perm contents with
  | some err => (some err, w)
  | none => (none, ⟨w.staged ++ [⟨path, perm, contents⟩]⟩)

/-- Writing one file into a directory: replaces the file with the same path, or adds
the file. -/
def writeFile (f : File) : List File → List File
  | [] => [f]
  | g :: rest => if g.path = f.path then f :: rest else g :: writeFile f rest

/-- Method `w.Save()`: commit every staged write, or, on an I/O error, leave the
directory as it was. -/
def Writer.Save (out : Outcomes) (w : Writer) (dir : List File) : Option Err × List File :=
  match out.Save w.staged with
  | some err => (some err, dir)
  | none => (none, w.staged.foldl (fun acc f => writeFile f acc) dir)

/-! ## Refresh cycle and persistence -/

/-- What the methods of the daemon act on: the daemon (its two caches), the files on
disk, and the calls made so far. -/
structure State where
  d : daemon
  dir : List File
  trace : List Event
deriving DecidableEq

/-- The visitor that `writeFiles` passes to `accessTokenCache.Range` (lines 175 to 186).
Its side effects are on the writer and on the call trace. -/
def stageAccessToken (env : Env) (out : Outcomes) (tokenDir : String)
    (_k : CacheKey) (t : Token) (ws : Writer × List Event) :
    Option Err × (Writer × List Event) :=
  let domain := t.Domain
  let role := t.Role
  let at_ := t.Raw
  let outPath := env.filepathJoin tokenDir (domain ++ ":role." ++ role ++ ".accesstoken")
  match ws.1.AddBytes out outPath 0o644 at_ with
  | (some err, w) =>
    (some ("unable to save access token: " ++ err), (w, ws.2 ++ [.addBytes ⟨outPath, 0o644, at_⟩]))
  | (none, w) => (none, (w, ws.2 ++ [.addBytes ⟨outPath, 0o644, at_⟩]))

/-- The visitor that `writeFiles` passes to `roleTokenCache.Range` (lines 187 to 198). -/
def stageRoleToken (env : Env) (out : Outcomes) (tokenDir : String)
    (_k : CacheKey) (t : Token) (ws : Writer × List Event) :
    Option Err × (Writer × List Event) :=
  let domain := t.Domain
  let role := t.Role
  let rt := t.Raw
  let outPath := env.filepathJoin tokenDir (domain ++ ":role." ++ role ++ ".roletoken")
  match ws.1.AddBytes out outPath 0o644 rt with
  | (some err, w) =>
    (some ("unable to save role token: " ++ err), (w, ws.2 ++ [.addBytes ⟨outPath, 0o644, rt⟩]))
  | (none, w) => (none, (w, ws.2 ++ [.addBytes ⟨outPath, 0o644, rt⟩]))

/-- Method `d.writeFiles()`. The two `Range` calls are statements: the error that
`Range` returns is not assigned, only the writer and the trace carry on. -/
def writeFiles (env : Env) (out : Outcomes) (s : State) : Option Err × State :=
  if s.d.tokenDir = "" then (none, s)
  else
    let w := NewWriter
    let r1 := s.d.accessTokenCache.Range (stageAccessToken env out s.d.tokenDir) (w, s.trace)
    let r2 := s.d.roleTokenCache.Range (stageRoleToken env out s.d.tokenDir) r1.2
    let saved := r2.2.1.Save out s.dir
    (saved.1, { s with dir := saved.2, trace := r2.2.2 ++ [.save r2.2.1.staged] })

/-- The deferred commit that the access-token loop appends to `atUpdateOps`. -/
def atUpdateOp (key : CacheKey) (at_ : AccessToken) (s : State) : State :=
  { s with
    d := { s.d with accessTokenCache := s.d.accessTokenCache.Store key (.access at_) }
    trace := s.trace ++ [.storeAccessToken key (.access at_)] }

/-- The deferred commit that the role-token loop appends to `rtUpdateOps`. -/
def rtUpdateOp (key : CacheKey) (rt : RoleToken) (s : State) : State :=
  { s with
    d := { s.d with roleTokenCache := s.d.roleTokenCache.Store key (.role rt) }
    trace := s.trace ++ [.storeRoleToken key (.role rt)] }

/-- The loop `for _, t := range atTargets` (lines 212 to 222): sequential fetches, the
first error ends the cycle, a success appends a deferred commit. -/
def fetchAccessTokens (out : Outcomes) (d : daemon) :
    List CacheKey → List Event → Except Err (List (State → State)) × List Event
  | [], tr => (.ok [], tr)
  | key :: rest, tr =>
    match out.fetchAccessToken d.ztsClient key d.saService with
    | .error err => (.error err, tr ++ [.fetchAccessToken key])
    | .ok at_ =>
      match fetchAccessTokens out d rest (tr ++ [.fetchAccessToken key]) with
      | (.error err, tr1) => (.error err, tr1)
      | (.ok ops, tr1) => (.ok (atUpdateOp key at_ :: ops), tr1)

/-- The loop `for _, t := range rtTargets` (lines 224 to 234). -/
def fetchRoleTokens (out : Outcomes) (d : daemon) :
    List CacheKey → List Event → Except Err (List (State → State)) × List Event
  | [], tr => (.ok [], tr)
  | key :: rest, tr =>
    match out.fetchRoleToken d.ztsClient key with
    | .error err => (.error err, tr ++ [.fetchRoleToken key])
    | .ok rt =>
      match fetchRoleTokens out d rest (tr ++ [.fetchRoleToken key]) with
      | (.error err, tr1) => (.error err, tr1)
      | (.ok ops, tr1) => (.ok (rtUpdateOp key rt :: ops), tr1)

/-- Running a list of deferred commits in order: `for _, ops := range ... { ops() }`. -/
def runOps (ops : List (State → State)) (s : State) : State :=
  ops.foldl (fun acc op => op acc) s

/-- Method `d.fetchTokensAndUpdateCaches()`. -/
def fetchTokensAndUpdateCaches (out : Outcomes) (s : State) : Option Err × State :=
  let atTargets := s.d.accessTokenCache.Keys
  let rtTargets := s.d.roleTokenCache.Keys
  match fetchAccessTokens out s.d atTargets s.trace with
  | (.error err, tr) => (some err, { s with trace := tr })
  | (.ok atUpdateOps, tr) =>
    match fetchRoleTokens out s.d rtTargets tr with
    | (.error err, tr1) => (some err, { s with trace := tr1 })
    | (.ok rtUpdateOps, tr1) =>
      (none, runOps rtUpdateOps (runOps atUpdateOps { s with trace := tr1 }))

/-- Method `d.updateToken()`. -/
def updateToken (env : Env) (out : Outcomes) (s : State) : Option Err × State :=
  match fetchTokensAndUpdateCaches out s with
  | (some err, s1) => (some err, s1)
  | (none, s1) => writeFiles env out s1

/-- Library call `backoff.RetryNotify(operation, b, notify)`: run `operation`, and while it
fails and `b.NextBackOff()` grants a delay, wait and run it again; when `NextBackOff`
answers `Stop`, return the error of the attempt just made. The delays are real time;
`retries` is the number of delays granted before `Stop`, `attempt` counts the runs. -/
def RetryNotify (operation : Nat → State → Option Err × State) :
    Nat → Nat → State → Option Err × State
  | 0, attempt, s => operation attempt s
  | retries + 1, attempt, s =>
    match operation attempt s with
    | (none, s1) => (none, s1)
    | (some _, s1) => RetryNotify operation retries (attempt + 1) s1

/-- Method `d.updateTokenWithRetry()`; attempt `i` of `updateToken` meets the outcomes
`outs i`. -/
def updateTokenWithRetry (env : Env) (outs : Nat → Outcomes) (retries : Nat) (s : State) :
    Option Err × State :=
  RetryNotify (fun i => updateToken env (outs i)) retries 0 s

/-! ## Tokend -/

/-- How a call of `Tokend` ends: a panic, or the pair `(error, <-chan struct{})`. -/
inductive TokendResult where
  | panicked (msg : String)
  | returned (err : Option Err) (shutdownChan : Option Unit)
deriving DecidableEq, Repr

/-- The TLS step of `Tokend` (lines 281 to 286). -/
def tokendTLS (env : Env) (idConfig : IdentityConfig) : Except Err (Option TLSConfig) :=
  if idConfig.TokenServerTLSCertPath ≠ "" ∧ idConfig.TokenServerTLSKeyPath ≠ "" then
    match env.NewTLSConfig idConfig.TokenServerTLSCAPath idConfig.TokenServerTLSCertPath
        idConfig.TokenServerTLSKeyPath with
    | .error err => .error err
    | .ok c => .ok (some c)
  else .ok none

/-- Function `Tokend(idConfig, stopChan)` up to its return: validation, construction of
the daemon, the initial `updateTokenWithRetry`, and the launch of the three
goroutines, which is recorded in the trace. What the goroutines do afterwards is
concurrent and is not part of this function's result. -/
def Tokend (env : Env) (outs : Nat → Outcomes) (retries : Nat) (idConfig : IdentityConfig)
    (stopChan : Option Unit) (dir : List File) (trace : List Event) :
    TokendResult × List File × List Event :=
  if stopChan = none then (.panicked "Tokend: stopChan cannot be empty", dir, trace)
  else
    let tt := env.newType idConfig.TokenType
    if idConfig.TokenServerAddr = "" ∨ tt = 0 then (.returned none none, dir, trace)
    else
      match newDaemon env idConfig tt with
      | .error err => (.returned (some err) none, dir, trace)
      | .ok d =>
        let s := (updateTokenWithRetry env outs retries ⟨d, dir, trace⟩).2
        if idConfig.Init then (.returned none none, s.dir, s.trace)
        else
          match tokendTLS env idConfig with
          | .error err => (.returned (some err) none, s.dir, s.trace)
          | .ok tls =>
            (.returned none (some ()), s.dir,
              s.trace ++ [.goServe idConfig.TokenServerAddr tls, .goRefresh, .goReport])

/-! ## A concrete environment -/

/-- Position of the first occurrence of `pat` in `s`, as `strings.Index`. -/
def indexOf (pat : List Char) : List Char → Option Nat
  | [] => if pat = [] then some 0 else none
  | c :: cs =>
    if pat.isPrefixOf (c :: cs) then some 0
    else (indexOf pat cs).map (· + 1)

/-- Modelled from the spec: `SplitRoleName` belongs to the Athenz utility library. A target is
`domain:role.<role>` with non-empty domain and role; the name is cut at the first
`:role.`. -/
def SplitRoleName (roleName : String) : Except Err (String × String) :=
  match indexOf ":role.".data roleName.data with
  | none => .error ("invalid role name: " ++ roleName)
  | some idx =>
    let domain := String.mk (roleName.data.take idx)
    let role := String.mk (roleName.data.drop (idx + 6))
    if domain = "" ∨ role = "" then .error ("invalid role name: " ++ roleName)
    else .ok (domain, role)

/-- An environment for evaluating the daemon on concrete inputs: the client is always
built, `filepath.Join` of a clean directory and a file name, whole seconds. -/
def sampleEnv : Env where
  SplitRoleName := SplitRoleName
  newZTSClient := fun _ _ _ _ => .ok ⟨0⟩
  ServiceAccountToService := fun sa => sa
  newType := fun raw =>
    (if raw = "accesstoken" ∨ raw = "roletoken+accesstoken" then 1 else 0) +
    (if raw = "roletoken" ∨ raw = "roletoken+accesstoken" then 2 else 0)
  mACCESS_TOKEN := 1
  mROLE_TOKEN := 2
  Seconds := fun ns => ns.tdiv 1000000000
  filepathJoin := fun dir name => dir ++ "/" ++ name
  NewTLSConfig := fun _ _ _ => .ok ⟨0⟩

/-- The environment `sampleEnv` with a key pair that cannot be loaded. -/
def brokenClientEnv : Env :=
  { sampleEnv with newZTSClient := fun _ _ _ _ => .error "failed to load key pair" }

/-- The targets that `newDaemon` parses: none for the empty specification, otherwise the
comma-separated elements. -/
def configuredTargets (spec : String) : List String :=
  if spec = "" then [] else stringsSplit spec ','

/-- The placeholder entry of an access-token target, as stored at line 72. -/
def accessPlaceholder (tokenExpiryInSecond : Int) (p : String × String) : CacheKey × Token :=
  ({ Domain := p.1, Role := p.2, MaxExpiry := tokenExpiryInSecond }, .access {})

/-- The placeholder entry of a role-token target, as stored at line 75. -/
def rolePlaceholder (tokenExpiryInSecond : Int) (p : String × String) : CacheKey × Token :=
  ({ Domain := p.1, Role := p.2, MinExpiry := tokenExpiryInSecond }, .role {})

/-- The token that the issuer returns for an access-token target in this attempt; the
zero value when the fetch fails. -/
def fetchedAccessToken (out : Outcomes) (d : daemon) (k : CacheKey) : AccessToken :=
  match out.fetchAccessToken d.ztsClient k d.saService with
  | .ok t => t
  | .error _ => {}

/-- The token that the issuer returns for a role-token target in this attempt; the zero
value when the fetch fails. -/
def fetchedRoleToken (out : Outcomes) (d : daemon) (k : CacheKey) : RoleToken :=
  match out.fetchRoleToken d.ztsClient k with
  | .ok t => t
  | .error _ => {}

/-- The file that the path convention assigns to an access token: path
`<dir>/<domain>:role.<role>.accesstoken`, permission `0644`, contents `Raw()`. -/
def accessTokenFile (env : Env) (tokenDir : String) (t : Token) : File :=
  ⟨env.filepathJoin tokenDir (t.Domain ++ ":role." ++ t.Role ++ ".accesstoken"), 0o644, t.Raw⟩

/-- The file that the path convention assigns to a role token: path
`<dir>/<domain>:role.<role>.roletoken`, permission `0644`, contents `Raw()`. -/
def roleTokenFile (env : Env) (tokenDir : String) (t : Token) : File :=
  ⟨env.filepathJoin tokenDir (t.Domain ++ ":role." ++ t.Role ++ ".roletoken"), 0o644, t.Raw⟩

/-- The files of a whole cache content, access tokens first. -/
def tokenFiles (env : Env) (tokenDir : String) (accessTokens roleTokens : List Token) :
    List File :=
  accessTokens.map (accessTokenFile env tokenDir) ++ roleTokens.map (roleTokenFile env tokenDir)

/-! ## Concrete inputs -/

/-- Access-token key of target `domA:role.roleA`. -/
def keyA : CacheKey := { Domain := "domA", Role := "roleA", MaxExpiry := 3600 }

/-- Access-token key of target `domB:role.roleB`. -/
def keyB : CacheKey := { Domain := "domB", Role := "roleB", MaxExpiry := 3600 }

/-- Role-token key of target `domA:role.roleA`. -/
def keyR : CacheKey := { Domain := "domA", Role := "roleA", MinExpiry := 3600 }

/-- A daemon with two access-token placeholders and one role-token placeholder, writing
to `/var/run/athenz`. -/
def sampleDaemon : daemon where
  accessTokenCache := (NewLockedTokenCache.Store keyA (.access {})).Store keyB (.access {})
  roleTokenCache := NewLockedTokenCache.Store keyR (.role {})
  ztsClient := ⟨0⟩
  saService := "client"
  tokenRESTAPI := false
  tokenType := 3
  tokenDir := "/var/run/athenz"
  tokenRefresh := 1800000000000
  tokenExpiryInSecond := 3600
  roleAuthHeader := "Athenz-Role-Auth"

/-- The daemon `sampleDaemon` before its first cycle, with an empty directory. -/
def sampleState : State := ⟨sampleDaemon, [], []⟩

/-- An attempt in which the issuer answers every target and the disk works. -/
def issuerUp : Outcomes where
  fetchAccessToken := fun _ k _ =>
    .ok { domain := k.Domain, role := k.Role, raw := [97, 116], scope := k.Role,
          expiry := 1864233600 }
  fetchRoleToken := fun _ k =>
    .ok { domain := k.Domain, role := k.Role, raw := [114, 116, 49], expiry := 1864233600 }
  AddBytes := fun _ _ _ => none
  Save := fun _ => none

/-- An attempt in which the issuer rejects `domB` and answers every other target. -/
def issuerDownB : Outcomes :=
  { issuerUp with
    fetchAccessToken := fun z k sa =>
      if k.Domain = "domB" then .error "zts: 503" else issuerUp.fetchAccessToken z k sa }

/-- An attempt in which every fetch succeeds and the commit of the staged files fails. -/
def diskFull : Outcomes := { issuerUp with Save := fun _ => some "no space left on device" }

/-- An attempt in which every fetch succeeds and staging the file of `domB` fails. -/
def stagingFailsB : Outcomes :=
  { issuerUp with
    AddBytes := fun path _ _ =>
      if path = "/var/run/athenz/domB:role.roleB.accesstoken" then some "permission denied"
      else none }

/-- The state `sampleState` after one successful cycle with the outcomes `issuerUp`. -/
def committedState : State := (fetchTokensAndUpdateCaches issuerUp sampleState).2

/-- Configuration of Scenario A: targets `domA:role.roleA` and `domB:role.roleB`, expiry
one hour, token server on port 8880. -/
def scenarioA : IdentityConfig :=
  { TargetDomainRoles := "domA:role.roleA,domB:role.roleB"
    TokenType := "accesstoken"
    TokenExpiry := 3600000000000
    TokenRefresh := 1800000000000
    TokenServerAddr := ":8880" }

/-- Configuration `scenarioA` with a leading comma in the target specification. -/
def leadingComma : IdentityConfig :=
  { scenarioA with TargetDomainRoles := ",domA:role.roleA" }

/-! ## Lemmas on the cache -/

/-- Storing under a key that is absent appends the entry. -/
theorem storeEntries_of_not_mem (k : CacheKey) (t : Token) (l : List (CacheKey × Token))
    (h : k ∉ l.map Prod.fst) : storeEntries k t l = l ++ [(k, t)] := by
  induction l with
  | nil => rfl
  | cons e rest ih =>
    have h1 : e.1 ≠ k := fun hk => h (by simp [hk])
    have h2 : k ∉ rest.map Prod.fst := fun hk => h (by
      rw [List.map_cons]; exact List.mem_cons_of_mem _ hk)
    simp [storeEntries, h1, ih h2]

/-- Storing under a key that is present replaces the value of that entry in place. -/
theorem storeEntries_of_mem (k : CacheKey) (t : Token) (l : List (CacheKey × Token))
    (hn : (l.map Prod.fst).Nodup) (h : k ∈ l.map Prod.fst) :
    storeEntries k t l = l.map (fun e => if e.1 = k then (k, t) else e) := by
  induction l with
  | nil => simp at h
  | cons e rest ih =>
    rw [List.map_cons, List.nodup_cons] at hn
    by_cases hk : e.1 = k
    · have hrest : rest.map (fun e => if e.1 = k then (k, t) else e) = rest := by
        conv_rhs => rw [← List.map_id rest]
        apply List.map_congr_left
        intro x hx
        have : x.1 ≠ k := by
          intro hxk
          apply hn.1
          rw [hk, ← hxk]
          exact List.mem_map_of_mem _ hx
        simp [this]
      simp [storeEntries, hk, hrest]
    · have h2 : k ∈ rest.map Prod.fst := by
        rw [List.map_cons] at h
        rcases List.mem_cons.1 h with h | h
        · exact absurd h.symm hk
        · exact h
      simp [storeEntries, hk, ih hn.2 h2]

/-- A batch of stores for keys that are all present rewrites exactly those entries. -/
theorem storeAll_entries (f : CacheKey → Token) (ks : List CacheKey) (c : TokenCache)
    (h : ∀ k ∈ ks, k ∈ c.Keys) :
    (storeAll c (ks.map fun k => (k, f k))).entries =
      c.entries.map (fun e => if e.1 ∈ ks then (e.1, f e.1) else e) := by
  induction ks generalizing c with
  | nil => simp [storeAll]
  | cons k rest ih =>
    have hk : k ∈ c.entries.map Prod.fst := h k (List.mem_cons_self _ _)
    have hc : (c.Store k (f k)).entries =
        c.entries.map (fun e => if e.1 = k then (k, f k) else e) :=
      storeEntries_of_mem k (f k) c.entries c.nodup hk
    have hkeys : (c.Store k (f k)).Keys = c.Keys := by
      unfold TokenCache.Keys
      rw [hc, List.map_map]
      apply List.map_congr_left
      intro x _
      by_cases hx : x.1 = k <;> simp [hx]
    have hrest : ∀ k1 ∈ rest, k1 ∈ (c.Store k (f k)).Keys := by
      intro k1 hk1
      rw [hkeys]
      exact h k1 (List.mem_cons_of_mem _ hk1)
    have step : storeAll c ((k :: rest).map fun k => (k, f k)) =
        storeAll (c.Store k (f k)) (rest.map fun k => (k, f k)) := by
      simp [storeAll]
    rw [step, ih _ hrest, hc, List.map_map]
    apply List.map_congr_left
    intro x _
    by_cases hx : x.1 = k
    · simp [hx]
    · have hx1 : ¬ k = x.1 := fun e => hx e.symm
      simp [hx, hx1]

/-- A batch with one store for every key of the cache rewrites every entry. -/
theorem storeAll_keys (f : CacheKey → Token) (c : TokenCache) :
    (storeAll c (c.Keys.map fun k => (k, f k))).entries =
      c.entries.map (fun e => (e.1, f e.1)) := by
  rw [storeAll_entries f c.Keys c (fun _ h => h)]
  apply List.map_congr_left
  intro x hx
  have : x.1 ∈ c.Keys := List.mem_map_of_mem _ hx
  simp [this]

/-- Reading a key from a cache whose every entry has value `f key`. -/
theorem find_map_entries (f : CacheKey → Token) (l : List (CacheKey × Token)) (k : CacheKey)
    (h : k ∈ l.map Prod.fst) :
    ((l.map (fun e => (e.1, f e.1))).find? fun e => decide (e.1 = k)).map Prod.snd =
      some (f k) := by
  induction l with
  | nil => simp at h
  | cons e rest ih =>
    by_cases hk : e.1 = k
    · simp [List.find?, hk]
    · have h2 : k ∈ rest.map Prod.fst := by
        rw [List.map_cons] at h
        rcases List.mem_cons.1 h with h | h
        · exact absurd h.symm hk
        · exact h
      simp only [List.map_cons, List.find?, hk, decide_False]
      exact ih h2

/-- A batch of stores for pairwise distinct keys that are all absent appends the batch. -/
theorem storeAll_fresh (kts : List (CacheKey × Token)) (c : TokenCache)
    (hn : (kts.map Prod.fst).Nodup) (hd : ∀ k ∈ kts.map Prod.fst, k ∉ c.Keys) :
    (storeAll c kts).entries = c.entries ++ kts := by
  induction kts generalizing c with
  | nil => simp [storeAll]
  | cons kt rest ih =>
    rw [List.map_cons, List.nodup_cons] at hn
    have hk : kt.1 ∉ c.entries.map Prod.fst := hd kt.1 (by simp)
    have hc : (c.Store kt.1 kt.2).entries = c.entries ++ [(kt.1, kt.2)] :=
      storeEntries_of_not_mem kt.1 kt.2 c.entries hk
    have hrest : ∀ k ∈ rest.map Prod.fst, k ∉ (c.Store kt.1 kt.2).Keys := by
      intro k hkr hmem
      unfold TokenCache.Keys at hmem
      rw [hc, List.map_append, List.mem_append] at hmem
      rcases hmem with hmem | hmem
      · exact hd k (by rw [List.map_cons]; exact List.mem_cons_of_mem _ hkr) hmem
      · simp only [List.map_cons, List.map_nil, List.mem_singleton] at hmem
        exact hn.1 (hmem ▸ hkr)
    have step : storeAll c (kt :: rest) = storeAll (c.Store kt.1 kt.2) rest := by
      simp [storeAll]
    rw [step, ih _ hn.2 hrest, hc]
    simp

/-! ## Lemmas on construction -/

theorem splitChars_ne_nil (sep : Char) (l : List Char) : splitChars sep l ≠ [] := by
  cases l with
  | nil => simp [splitChars]
  | cons c cs =>
    unfold splitChars
    split
    · simp
    · split <;> simp

/-- Splitting at a separator: the pieces before it, then the pieces after it. -/
theorem splitChars_append_sep (sep : Char) (l1 l2 : List Char) :
    splitChars sep (l1 ++ sep :: l2) = splitChars sep l1 ++ splitChars sep l2 := by
  induction l1 with
  | nil => simp [splitChars]
  | cons c cs ih =>
    by_cases hc : c = sep
    · simp [splitChars, hc, ih]
    · have h1 := splitChars_ne_nil sep cs
      simp only [List.cons_append, splitChars, hc, if_false]
      have ih1 : splitChars sep (cs.append (sep :: l2)) =
          splitChars sep cs ++ splitChars sep l2 := ih
      rw [ih1]
      cases hs : splitChars sep cs with
      | nil => exact absurd hs h1
      | cons h t => simp

/-- A leading, trailing or doubled separator yields an empty element. -/
theorem stringsSplit_empty_element (spec : String) (l1 l2 : List Char)
    (h : spec.data = l1 ++ ',' :: l2) (hpos : l1 = [] ∨ l2 = [] ∨ ∃ l3, l2 = ',' :: l3) :
    "" ∈ stringsSplit spec ',' := by
  unfold stringsSplit
  rw [h, splitChars_append_sep, List.map_append, List.mem_append]
  have hnil : ("" : String) = String.mk [] := rfl
  rcases hpos with hpos | hpos | ⟨l3, hpos⟩
  · left; subst hpos
    simp [splitChars, hnil]
  · right; subst hpos
    simp [splitChars, hnil]
  · right; subst hpos
    simp [splitChars, hnil]

/-- With no placeholder phase to run, `newDaemon` builds two empty caches. -/
theorem newDaemonCaches_empty (env : Env) (idConfig : IdentityConfig) (tt : Nat)
    (h : idConfig.TargetDomainRoles = "") :
    newDaemonCaches env idConfig tt = .ok (NewLockedTokenCache, NewLockedTokenCache) := by
  simp [newDaemonCaches, h, stringsSplit, splitChars]

/-- The placeholder loop fails as soon as one target is rejected. -/
theorem newDaemonTargets_error (env : Env) (idConfig : IdentityConfig) (tt : Nat) (e : Int)
    (drs : List String) (caches : TokenCache × TokenCache)
    (h : ∃ dr ∈ drs, ∃ err, env.SplitRoleName dr = .error err) :
    ∃ err, newDaemonTargets env idConfig tt e drs caches =
      .error ("Invalid TargetDomainRoles[" ++ idConfig.TargetDomainRoles ++ "]: " ++ err) := by
  induction drs generalizing caches with
  | nil => obtain ⟨dr, hdr, _⟩ := h; simp at hdr
  | cons dr rest ih =>
    cases hs : env.SplitRoleName dr with
    | error err => exact ⟨err, by simp [newDaemonTargets, hs]⟩
    | ok p =>
      have h2 : ∃ dr1 ∈ rest, ∃ err, env.SplitRoleName dr1 = .error err := by
        obtain ⟨dr1, hdr1, err, herr⟩ := h
        rcases List.mem_cons.1 hdr1 with hdr1 | hdr1
        · rw [hdr1, hs] at herr; cases herr
        · exact ⟨dr1, hdr1, err, herr⟩
      obtain ⟨err, herr⟩ := ih _ h2
      exact ⟨err, by simp only [newDaemonTargets, hs]; exact herr⟩

/-- The placeholder loop on targets that are all accepted stores one placeholder per
target in the cache of each enabled kind. -/
theorem newDaemonTargets_ok (env : Env) (idConfig : IdentityConfig) (tt : Nat) (e : Int)
    (drs : List String) (pairs : List (String × String)) (caches : TokenCache × TokenCache)
    (h : drs.map env.SplitRoleName = pairs.map Except.ok) :
    newDaemonTargets env idConfig tt e drs caches =
      .ok (if tt &&& env.mACCESS_TOKEN ≠ 0 then
             storeAll caches.1 (pairs.map (accessPlaceholder e)) else caches.1,
           if tt &&& env.mROLE_TOKEN ≠ 0 then
             storeAll caches.2 (pairs.map (rolePlaceholder e)) else caches.2) := by
  induction drs generalizing pairs caches with
  | nil =>
    cases pairs with
    | nil => simp [newDaemonTargets, storeAll]
    | cons p ps => simp at h
  | cons dr rest ih =>
    cases pairs with
    | nil => simp at h
    | cons p ps =>
      simp only [List.map_cons, List.cons.injEq] at h
      obtain ⟨h1, h2⟩ := h
      simp only [newDaemonTargets, h1]
      rw [ih ps _ h2]
      by_cases ca : tt &&& env.mACCESS_TOKEN ≠ 0 <;> by_cases cr : tt &&& env.mROLE_TOKEN ≠ 0 <;>
        simp [ca, cr, storeAll, accessPlaceholder, rolePlaceholder]

/-- The placeholder keys of pairwise distinct targets are pairwise distinct. -/
theorem accessPlaceholder_nodup (e : Int) (pairs : List (String × String)) (h : pairs.Nodup) :
    ((pairs.map (accessPlaceholder e)).map Prod.fst).Nodup := by
  rw [List.map_map]
  apply List.Nodup.map _ h
  intro p q hpq
  simp only [Function.comp, accessPlaceholder, CacheKey.mk.injEq] at hpq
  exact Prod.ext hpq.1 hpq.2.1

theorem rolePlaceholder_nodup (e : Int) (pairs : List (String × String)) (h : pairs.Nodup) :
    ((pairs.map (rolePlaceholder e)).map Prod.fst).Nodup := by
  rw [List.map_map]
  apply List.Nodup.map _ h
  intro p q hpq
  simp only [Function.comp, rolePlaceholder, CacheKey.mk.injEq] at hpq
  exact Prod.ext hpq.1 hpq.2.1

/-- The caches that `newDaemon` builds from targets that are all accepted and pairwise
distinct. -/
theorem newDaemonCaches_ok (env : Env) (idConfig : IdentityConfig) (tt : Nat)
    (pairs : List (String × String))
    (hp : (configuredTargets idConfig.TargetDomainRoles).map env.SplitRoleName =
      pairs.map Except.ok)
    (hnd : pairs.Nodup) :
    ∃ a r, newDaemonCaches env idConfig tt = .ok (a, r) ∧
      a.entries = (if tt &&& env.mACCESS_TOKEN ≠ 0 then
        pairs.map (accessPlaceholder (env.Seconds idConfig.TokenExpiry)) else []) ∧
      r.entries = (if tt &&& env.mROLE_TOKEN ≠ 0 then
        pairs.map (rolePlaceholder (env.Seconds idConfig.TokenExpiry)) else []) := by
  by_cases hs : idConfig.TargetDomainRoles = ""
  · have hpairs : pairs = [] := by
      simp only [configuredTargets, hs, if_true, List.map_nil] at hp
      cases pairs with
      | nil => rfl
      | cons p ps => simp at hp
    refine ⟨_, _, newDaemonCaches_empty env idConfig tt hs, ?_, ?_⟩
    · simp [hpairs, NewLockedTokenCache]
    · simp [hpairs, NewLockedTokenCache]
  · simp only [configuredTargets, hs, if_false] at hp
    have hcond : idConfig.TargetDomainRoles ≠ "" ∨
        (stringsSplit idConfig.TargetDomainRoles ',').length ≠ 1 := Or.inl hs
    have hrun : newDaemonCaches env idConfig tt =
        .ok (if tt &&& env.mACCESS_TOKEN ≠ 0 then
               storeAll NewLockedTokenCache
                 (pairs.map (accessPlaceholder (env.Seconds idConfig.TokenExpiry)))
             else NewLockedTokenCache,
             if tt &&& env.mROLE_TOKEN ≠ 0 then
               storeAll NewLockedTokenCache
                 (pairs.map (rolePlaceholder (env.Seconds idConfig.TokenExpiry)))
             else NewLockedTokenCache) := by
      unfold newDaemonCaches
      dsimp only
      rw [if_pos hcond]
      exact newDaemonTargets_ok env idConfig tt _ _ pairs _ hp
    refine ⟨_, _, hrun, ?_, ?_⟩
    · by_cases ca : tt &&& env.mACCESS_TOKEN ≠ 0
      · rw [if_pos ca, if_pos ca]
        rw [storeAll_fresh _ _ (accessPlaceholder_nodup _ pairs hnd)
          (by intro k _ hk; simp [TokenCache.Keys, NewLockedTokenCache] at hk)]
        simp [NewLockedTokenCache]
      · rw [if_neg ca, if_neg ca]; rfl
    · by_cases cr : tt &&& env.mROLE_TOKEN ≠ 0
      · rw [if_pos cr, if_pos cr]
        rw [storeAll_fresh _ _ (rolePlaceholder_nodup _ pairs hnd)
          (by intro k _ hk; simp [TokenCache.Keys, NewLockedTokenCache] at hk)]
        simp [NewLockedTokenCache]
      · rw [if_neg cr, if_neg cr]; rfl

/-! ## Lemmas on the refresh cycle -/

theorem fetchAccessTokens_ok (out : Outcomes) (d : daemon) (fa : CacheKey → AccessToken)
    (ks : List CacheKey) (tr : List Event)
    (h : ∀ k ∈ ks, out.fetchAccessToken d.ztsClient k d.saService = .ok (fa k)) :
    fetchAccessTokens out d ks tr =
      (.ok (ks.map fun k => atUpdateOp k (fa k)), tr ++ ks.map Event.fetchAccessToken) := by
  induction ks generalizing tr with
  | nil => simp [fetchAccessTokens]
  | cons k rest ih =>
    have hk := h k (List.mem_cons_self _ _)
    have hrest : ∀ k1 ∈ rest, out.fetchAccessToken d.ztsClient k1 d.saService = .ok (fa k1) :=
      fun k1 h1 => h k1 (List.mem_cons_of_mem _ h1)
    simp [fetchAccessTokens, hk, ih _ hrest]

theorem fetchRoleTokens_ok (out : Outcomes) (d : daemon) (fr : CacheKey → RoleToken)
    (ks : List CacheKey) (tr : List Event)
    (h : ∀ k ∈ ks, out.fetchRoleToken d.ztsClient k = .ok (fr k)) :
    fetchRoleTokens out d ks tr =
      (.ok (ks.map fun k => rtUpdateOp k (fr k)), tr ++ ks.map Event.fetchRoleToken) := by
  induction ks generalizing tr with
  | nil => simp [fetchRoleTokens]
  | cons k rest ih =>
    have hk := h k (List.mem_cons_self _ _)
    have hrest : ∀ k1 ∈ rest, out.fetchRoleToken d.ztsClient k1 = .ok (fr k1) :=
      fun k1 h1 => h k1 (List.mem_cons_of_mem _ h1)
    simp [fetchRoleTokens, hk, ih _ hrest]

/-- The access-token loop only appends fetch events to the trace. -/
theorem fetchAccessTokens_trace (out : Outcomes) (d : daemon) (ks : List CacheKey)
    (tr : List Event) :
    ∃ l, (fetchAccessTokens out d ks tr).2 = tr ++ l ∧ ∀ ev ∈ l, ev.isFetch = true := by
  induction ks generalizing tr with
  | nil => exact ⟨[], by simp [fetchAccessTokens]⟩
  | cons k rest ih =>
    obtain ⟨l, hl, hf⟩ := ih (tr ++ [Event.fetchAccessToken k])
    cases hk : out.fetchAccessToken d.ztsClient k d.saService with
    | error e =>
      refine ⟨[Event.fetchAccessToken k], by simp [fetchAccessTokens, hk], ?_⟩
      intro ev hev
      rw [List.mem_singleton.1 hev]; rfl
    | ok t =>
      refine ⟨Event.fetchAccessToken k :: l, ?_, ?_⟩
      · have e2 : (fetchAccessTokens out d (k :: rest) tr).2 =
            (fetchAccessTokens out d rest (tr ++ [Event.fetchAccessToken k])).2 := by
          simp only [fetchAccessTokens, hk]
          rcases fetchAccessTokens out d rest (tr ++ [Event.fetchAccessToken k]) with ⟨r, t1⟩
          cases r <;> rfl
        rw [e2, hl]; simp
      · intro ev hev
        rcases List.mem_cons.1 hev with hev | hev
        · rw [hev]; rfl
        · exact hf ev hev

/-- The role-token loop only appends fetch events to the trace. -/
theorem fetchRoleTokens_trace (out : Outcomes) (d : daemon) (ks : List CacheKey)
    (tr : List Event) :
    ∃ l, (fetchRoleTokens out d ks tr).2 = tr ++ l ∧ ∀ ev ∈ l, ev.isFetch = true := by
  induction ks generalizing tr with
  | nil => exact ⟨[], by simp [fetchRoleTokens]⟩
  | cons k rest ih =>
    obtain ⟨l, hl, hf⟩ := ih (tr ++ [Event.fetchRoleToken k])
    cases hk : out.fetchRoleToken d.ztsClient k with
    | error e =>
      refine ⟨[Event.fetchRoleToken k], by simp [fetchRoleTokens, hk], ?_⟩
      intro ev hev
      rw [List.mem_singleton.1 hev]; rfl
    | ok t =>
      refine ⟨Event.fetchRoleToken k :: l, ?_, ?_⟩
      · have e2 : (fetchRoleTokens out d (k :: rest) tr).2 =
            (fetchRoleTokens out d rest (tr ++ [Event.fetchRoleToken k])).2 := by
          simp only [fetchRoleTokens, hk]
          rcases fetchRoleTokens out d rest (tr ++ [Event.fetchRoleToken k]) with ⟨r, t1⟩
          cases r <;> rfl
        rw [e2, hl]; simp
      · intro ev hev
        rcases List.mem_cons.1 hev with hev | hev
        · rw [hev]; rfl
        · exact hf ev hev

/-- One failing target makes the access-token loop end with an error. -/
theorem fetchAccessTokens_error (out : Outcomes) (d : daemon) (ks : List CacheKey)
    (tr : List Event)
    (h : ∃ k ∈ ks, ∃ e, out.fetchAccessToken d.ztsClient k d.saService = .error e) :
    ∃ e, (fetchAccessTokens out d ks tr).1 = .error e := by
  induction ks generalizing tr with
  | nil => obtain ⟨k, hk, _⟩ := h; simp at hk
  | cons k rest ih =>
    cases hk : out.fetchAccessToken d.ztsClient k d.saService with
    | error e => exact ⟨e, by simp [fetchAccessTokens, hk]⟩
    | ok t =>
      have h2 : ∃ k1 ∈ rest, ∃ e, out.fetchAccessToken d.ztsClient k1 d.saService = .error e := by
        obtain ⟨k1, hk1, e, he⟩ := h
        rcases List.mem_cons.1 hk1 with hk1 | hk1
        · rw [hk1, hk] at he; cases he
        · exact ⟨k1, hk1, e, he⟩
      obtain ⟨e, he⟩ := ih (tr ++ [Event.fetchAccessToken k]) h2
      refine ⟨e, ?_⟩
      simp only [fetchAccessTokens, hk]
      rcases hr : fetchAccessTokens out d rest (tr ++ [Event.fetchAccessToken k]) with ⟨r, t1⟩
      rw [hr] at he
      simp only at he
      subst he
      rfl

/-- One failing target makes the role-token loop end with an error. -/
theorem fetchRoleTokens_error (out : Outcomes) (d : daemon) (ks : List CacheKey)
    (tr : List Event)
    (h : ∃ k ∈ ks, ∃ e, out.fetchRoleToken d.ztsClient k = .error e) :
    ∃ e, (fetchRoleTokens out d ks tr).1 = .error e := by
  induction ks generalizing tr with
  | nil => obtain ⟨k, hk, _⟩ := h; simp at hk
  | cons k rest ih =>
    cases hk : out.fetchRoleToken d.ztsClient k with
    | error e => exact ⟨e, by simp [fetchRoleTokens, hk]⟩
    | ok t =>
      have h2 : ∃ k1 ∈ rest, ∃ e, out.fetchRoleToken d.ztsClient k1 = .error e := by
        obtain ⟨k1, hk1, e, he⟩ := h
        rcases List.mem_cons.1 hk1 with hk1 | hk1
        · rw [hk1, hk] at he; cases he
        · exact ⟨k1, hk1, e, he⟩
      obtain ⟨e, he⟩ := ih (tr ++ [Event.fetchRoleToken k]) h2
      refine ⟨e, ?_⟩
      simp only [fetchRoleTokens, hk]
      rcases hr : fetchRoleTokens out d rest (tr ++ [Event.fetchRoleToken k]) with ⟨r, t1⟩
      rw [hr] at he
      simp only at he
      subst he
      rfl

/-- Running the deferred access-token commits stores every pair and records it. -/
theorem runOps_atUpdateOps (fa : CacheKey → AccessToken) (ks : List CacheKey) (s : State) :
    runOps (ks.map fun k => atUpdateOp k (fa k)) s =
      { d := { s.d with
               accessTokenCache :=
                 storeAll s.d.accessTokenCache (ks.map fun k => (k, Token.access (fa k))) }
        dir := s.dir
        trace := s.trace ++ ks.map fun k => Event.storeAccessToken k (Token.access (fa k)) } := by
  induction ks generalizing s with
  | nil => simp [runOps, storeAll]
  | cons k rest ih =>
    have step : runOps ((k :: rest).map fun k => atUpdateOp k (fa k)) s =
        runOps (rest.map fun k => atUpdateOp k (fa k)) (atUpdateOp k (fa k) s) := by
      simp [runOps]
    rw [step, ih]
    simp [atUpdateOp, storeAll]

/-- Running the deferred role-token commits stores every pair and records it. -/
theorem runOps_rtUpdateOps (fr : CacheKey → RoleToken) (ks : List CacheKey) (s : State) :
    runOps (ks.map fun k => rtUpdateOp k (fr k)) s =
      { d := { s.d with
               roleTokenCache :=
                 storeAll s.d.roleTokenCache (ks.map fun k => (k, Token.role (fr k))) }
        dir := s.dir
        trace := s.trace ++ ks.map fun k => Event.storeRoleToken k (Token.role (fr k)) } := by
  induction ks generalizing s with
  | nil => simp [runOps, storeAll]
  | cons k rest ih =>
    have step : runOps ((k :: rest).map fun k => rtUpdateOp k (fr k)) s =
        runOps (rest.map fun k => rtUpdateOp k (fr k)) (rtUpdateOp k (fr k) s) := by
      simp [runOps]
    rw [step, ih]
    simp [rtUpdateOp, storeAll]

/-- The state after a cycle in which every fetch succeeds. -/
theorem fetchTokensAndUpdateCaches_ok (out : Outcomes) (s : State)
    (fa : CacheKey → AccessToken) (fr : CacheKey → RoleToken)
    (ha : ∀ k ∈ s.d.accessTokenCache.Keys,
      out.fetchAccessToken s.d.ztsClient k s.d.saService = .ok (fa k))
    (hr : ∀ k ∈ s.d.roleTokenCache.Keys, out.fetchRoleToken s.d.ztsClient k = .ok (fr k)) :
    fetchTokensAndUpdateCaches out s =
      (none,
        { d := { s.d with
                 accessTokenCache := storeAll s.d.accessTokenCache
                   (s.d.accessTokenCache.Keys.map fun k => (k, Token.access (fa k)))
                 roleTokenCache := storeAll s.d.roleTokenCache
                   (s.d.roleTokenCache.Keys.map fun k => (k, Token.role (fr k))) }
          dir := s.dir
          trace := s.trace ++ s.d.accessTokenCache.Keys.map Event.fetchAccessToken ++
            s.d.roleTokenCache.Keys.map Event.fetchRoleToken ++
            (s.d.accessTokenCache.Keys.map fun k => Event.storeAccessToken k (Token.access (fa k))) ++
            (s.d.roleTokenCache.Keys.map fun k => Event.storeRoleToken k (Token.role (fr k))) }) := by
  unfold fetchTokensAndUpdateCaches
  simp only [fetchAccessTokens_ok out s.d fa _ _ ha, fetchRoleTokens_ok out s.d fr _ _ hr,
    runOps_atUpdateOps, runOps_rtUpdateOps]

/-- A cycle that returns an error leaves the daemon and the directory as they were and
appends only fetch events to the trace. -/
theorem fetchTokensAndUpdateCaches_error (out : Outcomes) (s : State) (e : Err)
    (h : (fetchTokensAndUpdateCaches out s).1 = some e) :
    (fetchTokensAndUpdateCaches out s).2.d = s.d ∧
    (fetchTokensAndUpdateCaches out s).2.dir = s.dir ∧
    ∃ l, (fetchTokensAndUpdateCaches out s).2.trace = s.trace ++ l ∧
      ∀ ev ∈ l, ev.isFetch = true := by
  unfold fetchTokensAndUpdateCaches at h ⊢
  dsimp only at h ⊢
  obtain ⟨l1, hl1, hf1⟩ := fetchAccessTokens_trace out s.d s.d.accessTokenCache.Keys s.trace
  generalize fetchAccessTokens out s.d s.d.accessTokenCache.Keys s.trace = p1 at h hl1 ⊢
  obtain ⟨r1, t1⟩ := p1
  cases r1 with
  | error e1 => exact ⟨rfl, rfl, l1, hl1, hf1⟩
  | ok ops1 =>
    obtain ⟨l2, hl2, hf2⟩ := fetchRoleTokens_trace out s.d s.d.roleTokenCache.Keys t1
    dsimp only at h hl1 ⊢
    generalize fetchRoleTokens out s.d s.d.roleTokenCache.Keys t1 = p2 at h hl2 ⊢
    obtain ⟨r2, t2⟩ := p2
    cases r2 with
    | error e2 =>
      refine ⟨rfl, rfl, l1 ++ l2, ?_, ?_⟩
      · simp only at hl1 hl2 ⊢
        rw [hl2, hl1, List.append_assoc]
      · intro ev hev
        rcases List.mem_append.1 hev with hev | hev
        · exact hf1 ev hev
        · exact hf2 ev hev
    | ok ops2 => simp at h

/-- One failing fetch, of either kind, makes the cycle return an error. -/
theorem fetchTokensAndUpdateCaches_fails (out : Outcomes) (s : State)
    (h : (∃ k ∈ s.d.accessTokenCache.Keys, ∃ e,
            out.fetchAccessToken s.d.ztsClient k s.d.saService = .error e) ∨
         (∃ k ∈ s.d.roleTokenCache.Keys, ∃ e,
            out.fetchRoleToken s.d.ztsClient k = .error e)) :
    ∃ e, (fetchTokensAndUpdateCaches out s).1 = some e := by
  unfold fetchTokensAndUpdateCaches
  dsimp only
  rcases h with h | h
  · obtain ⟨e, he⟩ := fetchAccessTokens_error out s.d _ s.trace h
    generalize fetchAccessTokens out s.d s.d.accessTokenCache.Keys s.trace = p1 at he ⊢
    obtain ⟨r1, t1⟩ := p1
    simp only at he
    subst he
    exact ⟨e, rfl⟩
  · generalize fetchAccessTokens out s.d s.d.accessTokenCache.Keys s.trace = p1
    obtain ⟨r1, t1⟩ := p1
    cases r1 with
    | error e1 => exact ⟨e1, rfl⟩
    | ok ops1 =>
      obtain ⟨e, he⟩ := fetchRoleTokens_error out s.d _ t1 h
      dsimp only
      generalize fetchRoleTokens out s.d s.d.roleTokenCache.Keys t1 = p2 at he ⊢
      obtain ⟨r2, t2⟩ := p2
      simp only at he
      subst he
      exact ⟨e, rfl⟩

/-- A cycle that returns nil has fetched a token for every key of both caches. -/
theorem fetchTokensAndUpdateCaches_nil (out : Outcomes) (s : State)
    (h : (fetchTokensAndUpdateCaches out s).1 = none) :
    (∀ k ∈ s.d.accessTokenCache.Keys,
      out.fetchAccessToken s.d.ztsClient k s.d.saService = .ok (fetchedAccessToken out s.d k)) ∧
    (∀ k ∈ s.d.roleTokenCache.Keys,
      out.fetchRoleToken s.d.ztsClient k = .ok (fetchedRoleToken out s.d k)) := by
  constructor
  · intro k hk
    cases hf : out.fetchAccessToken s.d.ztsClient k s.d.saService with
    | error e =>
      obtain ⟨e1, he1⟩ := fetchTokensAndUpdateCaches_fails out s (Or.inl ⟨k, hk, e, hf⟩)
      rw [h] at he1; cases he1
    | ok t => simp [fetchedAccessToken, hf]
  · intro k hk
    cases hf : out.fetchRoleToken s.d.ztsClient k with
    | error e =>
      obtain ⟨e1, he1⟩ := fetchTokensAndUpdateCaches_fails out s (Or.inr ⟨k, hk, e, hf⟩)
      rw [h] at he1; cases he1
    | ok t => simp [fetchedRoleToken, hf]

/-! ## Lemmas on persistence -/

theorem rangeEntries_stageAccessToken (env : Env) (out : Outcomes) (tokenDir : String)
    (h : ∀ p m c, out.AddBytes p m c = none) (l : List (CacheKey × Token)) (w : Writer)
    (tr : List Event) :
    rangeEntries (stageAccessToken env out tokenDir) l (w, tr) =
      (none, (⟨w.staged ++ l.map fun e => accessTokenFile env tokenDir e.2⟩,
        tr ++ l.map fun e => Event.addBytes (accessTokenFile env tokenDir e.2))) := by
  induction l generalizing w tr with
  | nil => simp [rangeEntries]
  | cons e rest ih =>
    simp [rangeEntries, stageAccessToken, Writer.AddBytes, h, ih, accessTokenFile]

theorem rangeEntries_stageRoleToken (env : Env) (out : Outcomes) (tokenDir : String)
    (h : ∀ p m c, out.AddBytes p m c = none) (l : List (CacheKey × Token)) (w : Writer)
    (tr : List Event) :
    rangeEntries (stageRoleToken env out tokenDir) l (w, tr) =
      (none, (⟨w.staged ++ l.map fun e => roleTokenFile env tokenDir e.2⟩,
        tr ++ l.map fun e => Event.addBytes (roleTokenFile env tokenDir e.2))) := by
  induction l generalizing w tr with
  | nil => simp [rangeEntries]
  | cons e rest ih =>
    simp [rangeEntries, stageRoleToken, Writer.AddBytes, h, ih, roleTokenFile]

/-- With a directory configured and no staging error, `writeFiles` stages the files of
all entries and returns what `Save` returns. -/
theorem writeFiles_staged (env : Env) (out : Outcomes) (s : State) (hdir : s.d.tokenDir ≠ "")
    (h : ∀ p m c, out.AddBytes p m c = none) :
    writeFiles env out s =
      ((Writer.Save out ⟨tokenFiles env s.d.tokenDir (s.d.accessTokenCache.entries.map Prod.snd)
          (s.d.roleTokenCache.entries.map Prod.snd)⟩ s.dir).1,
        { d := s.d
          dir := (Writer.Save out ⟨tokenFiles env s.d.tokenDir
            (s.d.accessTokenCache.entries.map Prod.snd)
            (s.d.roleTokenCache.entries.map Prod.snd)⟩ s.dir).2
          trace := s.trace ++
            (s.d.accessTokenCache.entries.map fun e =>
              Event.addBytes (accessTokenFile env s.d.tokenDir e.2)) ++
            (s.d.roleTokenCache.entries.map fun e =>
              Event.addBytes (roleTokenFile env s.d.tokenDir e.2)) ++
            [Event.save (tokenFiles env s.d.tokenDir (s.d.accessTokenCache.entries.map Prod.snd)
              (s.d.roleTokenCache.entries.map Prod.snd))] }) := by
  unfold writeFiles
  rw [if_neg hdir]
  simp only [TokenCache.Range, rangeEntries_stageAccessToken env out _ h,
    rangeEntries_stageRoleToken env out _ h, NewWriter, tokenFiles, List.nil_append,
    List.map_map, Function.comp_def]

/-- The function `writeFiles` never touches the daemon. -/
theorem writeFiles_d (env : Env) (out : Outcomes) (s : State) :
    (writeFiles env out s).2.d = s.d := by
  unfold writeFiles
  split <;> rfl

/-- An error from `writeFiles` is the error of `Save`, and the directory is as before. -/
theorem writeFiles_error_dir (env : Env) (out : Outcomes) (s : State) (e : Err)
    (h : (writeFiles env out s).1 = some e) : (writeFiles env out s).2.dir = s.dir := by
  unfold writeFiles at h ⊢
  split at h
  · cases h
  · rename_i hdir
    rw [if_neg hdir]
    dsimp only at h ⊢
    unfold Writer.Save at h ⊢
    split at h
    · rfl
    · cases h

/-- An error from `writeFiles` needs a configured directory and is an error of `Save`. -/
theorem writeFiles_error_source (env : Env) (out : Outcomes) (s : State) (e : Err)
    (h : (writeFiles env out s).1 = some e) :
    s.d.tokenDir ≠ "" ∧ ∃ staged, out.Save staged = some e := by
  unfold writeFiles at h
  split at h
  · cases h
  · rename_i hdir
    refine ⟨hdir, ?_⟩
    dsimp only at h
    unfold Writer.Save at h
    split at h
    · rename_i err herr
      simp only [Option.some.injEq] at h
      exact ⟨_, h ▸ herr⟩
    · cases h

/-- A refresh cycle never changes the configured directory of the daemon. -/
theorem fetchTokensAndUpdateCaches_tokenDir (out : Outcomes) (s : State) :
    (fetchTokensAndUpdateCaches out s).2.d.tokenDir = s.d.tokenDir := by
  cases hres : (fetchTokensAndUpdateCaches out s).1 with
  | some e => rw [(fetchTokensAndUpdateCaches_error out s e hres).1]
  | none =>
    obtain ⟨ha, hr⟩ := fetchTokensAndUpdateCaches_nil out s hres
    rw [fetchTokensAndUpdateCaches_ok out s _ _ ha hr]

/-- The function `updateToken` in terms of its two steps. -/
theorem updateToken_eq (env : Env) (out : Outcomes) (s : State) :
    updateToken env out s =
      match (fetchTokensAndUpdateCaches out s).1 with
      | some err => (some err, (fetchTokensAndUpdateCaches out s).2)
      | none => writeFiles env out (fetchTokensAndUpdateCaches out s).2 := by
  unfold updateToken
  generalize fetchTokensAndUpdateCaches out s = p
  obtain ⟨r, s1⟩ := p
  cases r <;> rfl

/-- When the file-write step cannot fail, a failed `updateToken` is a failed fetch
phase and leaves daemon and directory as they were. -/
theorem updateToken_error_stale (env : Env) (out : Outcomes) (s : State) (e : Err)
    (hw : s.d.tokenDir = "" ∨ ∀ staged, out.Save staged = none)
    (h : (updateToken env out s).1 = some e) :
    (updateToken env out s).2.d = s.d ∧ (updateToken env out s).2.dir = s.dir ∧
    (fetchTokensAndUpdateCaches out s).1 = some e := by
  rw [updateToken_eq] at h ⊢
  cases hres : (fetchTokensAndUpdateCaches out s).1 with
  | some err =>
    rw [hres] at h
    simp only [Option.some.injEq] at h ⊢
    subst h
    obtain ⟨hd, hdir, _⟩ := fetchTokensAndUpdateCaches_error out s err hres
    exact ⟨hd, hdir, rfl⟩
  | none =>
    rw [hres] at h
    obtain ⟨hdir, staged, hs⟩ := writeFiles_error_source env out _ e h
    rw [fetchTokensAndUpdateCaches_tokenDir] at hdir
    rcases hw with hw | hw
    · exact absurd hw hdir
    · rw [hw staged] at hs; cases hs

/-- When the file-write step fails in no attempt, a retry loop that ends with an error
leaves daemon and directory as they were, and its error is the fetch error of the
attempt made last. -/
theorem RetryNotify_error_stale (env : Env) (outs : Nat → Outcomes) (e : Err) (retries : Nat) :
    ∀ (attempt : Nat) (s : State),
      (s.d.tokenDir = "" ∨ ∀ i staged, (outs i).Save staged = none) →
      (RetryNotify (fun i => updateToken env (outs i)) retries attempt s).1 = some e →
      (RetryNotify (fun i => updateToken env (outs i)) retries attempt s).2.d = s.d ∧
      (RetryNotify (fun i => updateToken env (outs i)) retries attempt s).2.dir = s.dir ∧
      ∃ s1 : State, s1.d = s.d ∧ s1.dir = s.dir ∧
        (fetchTokensAndUpdateCaches (outs (attempt + retries)) s1).1 = some e := by
  induction retries with
  | zero =>
    intro attempt s hw h
    have hw1 : s.d.tokenDir = "" ∨ ∀ staged, (outs attempt).Save staged = none :=
      hw.imp id (fun f => f attempt)
    obtain ⟨hd, hdir, hf⟩ := updateToken_error_stale env (outs attempt) s e hw1 h
    exact ⟨hd, hdir, s, rfl, rfl, hf⟩
  | succ n ih =>
    intro attempt s hw h
    have hw1 : s.d.tokenDir = "" ∨ ∀ staged, (outs attempt).Save staged = none :=
      hw.imp id (fun f => f attempt)
    have step : RetryNotify (fun i => updateToken env (outs i)) (n + 1) attempt s =
        match (updateToken env (outs attempt) s).1 with
        | none => (none, (updateToken env (outs attempt) s).2)
        | some _ => RetryNotify (fun i => updateToken env (outs i)) n (attempt + 1)
            (updateToken env (outs attempt) s).2 := by
      simp only [RetryNotify]
      generalize updateToken env (outs attempt) s = p
      obtain ⟨r, s1⟩ := p
      cases r <;> rfl
    rw [step] at h ⊢
    cases hres : (updateToken env (outs attempt) s).1 with
    | none => rw [hres] at h; cases h
    | some e1 =>
      rw [hres] at h
      dsimp only at h ⊢
      obtain ⟨hd, hdir, _⟩ := updateToken_error_stale env (outs attempt) s e1 hw1 hres
      have hw2 : (updateToken env (outs attempt) s).2.d.tokenDir = "" ∨
          ∀ i staged, (outs i).Save staged = none := by
        rw [hd]; exact hw
      obtain ⟨h1, h2, s1, h3, h4, h5⟩ := ih (attempt + 1) _ hw2 h
      refine ⟨h1.trans hd, h2.trans hdir, s1, h3.trans hd, h4.trans hdir, ?_⟩
      have : attempt + (n + 1) = attempt + 1 + n := by omega
      rw [this]; exact h5

/-! ## Claims on the refresh cycle -/

/-- C1 (atomicity of a refresh cycle): when the fetch of some access-token key or of
some role-token key fails, `fetchTokensAndUpdateCaches` returns an error, both caches
are the caches from before the call, and the call performs no `Store`. -/
theorem fetch_failure_keeps_caches (out : Outcomes) (s : State)
    (h : (∃ k ∈ s.d.accessTokenCache.Keys, ∃ e,
            out.fetchAccessToken s.d.ztsClient k s.d.saService = .error e) ∨
         (∃ k ∈ s.d.roleTokenCache.Keys, ∃ e,
            out.fetchRoleToken s.d.ztsClient k = .error e)) :
    (∃ e, (fetchTokensAndUpdateCaches out s).1 = some e) ∧
    (fetchTokensAndUpdateCaches out s).2.d.accessTokenCache = s.d.accessTokenCache ∧
    (fetchTokensAndUpdateCaches out s).2.d.roleTokenCache = s.d.roleTokenCache ∧
    (∀ k, (fetchTokensAndUpdateCaches out s).2.d.accessTokenCache.Load k =
            s.d.accessTokenCache.Load k) ∧
    ∃ l, (fetchTokensAndUpdateCaches out s).2.trace = s.trace ++ l ∧
      ∀ ev ∈ l, ev.isStore = false := by
  have herr := fetchTokensAndUpdateCaches_fails out s h
  obtain ⟨e, he⟩ := herr
  obtain ⟨hd, _, l, hl, hf⟩ := fetchTokensAndUpdateCaches_error out s e he
  refine ⟨⟨e, he⟩, by rw [hd], by rw [hd], fun k => by rw [hd], l, hl, ?_⟩
  intro ev hev
  have := hf ev hev
  cases ev <;> simp_all [Event.isFetch, Event.isStore]

/-- Scenario B, attempt 1: the fetch for `domB` fails, so the cycle returns the error
and `domA` keeps its placeholder although its own fetch succeeded. -/
theorem fetch_failure_keeps_caches_witness :
    issuerDownB.fetchAccessToken sampleState.d.ztsClient keyB sampleState.d.saService =
      .error "zts: 503" ∧
    issuerDownB.fetchAccessToken sampleState.d.ztsClient keyA sampleState.d.saService =
      .ok { domain := "domA", role := "roleA", raw := [97, 116], scope := "roleA",
            expiry := 1864233600 } ∧
    (fetchTokensAndUpdateCaches issuerDownB sampleState).2.d.accessTokenCache =
      sampleState.d.accessTokenCache ∧
    (fetchTokensAndUpdateCaches issuerDownB sampleState).2.d.accessTokenCache.Load keyA =
      some (.access {}) :=
  ⟨rfl, rfl,
    (fetch_failure_keeps_caches issuerDownB sampleState
      (Or.inl ⟨keyB, by decide, "zts: 503", rfl⟩)).2.1,
    by decide⟩

/-- C2 (completeness of a successful cycle): when every fetch succeeds,
`fetchTokensAndUpdateCaches` returns nil, each cache keeps exactly its keys, and every
key maps to the token fetched for it in this cycle. -/
theorem all_fetched_all_committed (out : Outcomes) (s : State)
    (fa : CacheKey → AccessToken) (fr : CacheKey → RoleToken)
    (ha : ∀ k ∈ s.d.accessTokenCache.Keys,
      out.fetchAccessToken s.d.ztsClient k s.d.saService = .ok (fa k))
    (hr : ∀ k ∈ s.d.roleTokenCache.Keys, out.fetchRoleToken s.d.ztsClient k = .ok (fr k)) :
    (fetchTokensAndUpdateCaches out s).1 = none ∧
    (fetchTokensAndUpdateCaches out s).2.d.accessTokenCache.Keys = s.d.accessTokenCache.Keys ∧
    (fetchTokensAndUpdateCaches out s).2.d.roleTokenCache.Keys = s.d.roleTokenCache.Keys ∧
    (∀ k ∈ s.d.accessTokenCache.Keys,
      (fetchTokensAndUpdateCaches out s).2.d.accessTokenCache.Load k =
        some (.access (fa k))) ∧
    (∀ k ∈ s.d.roleTokenCache.Keys,
      (fetchTokensAndUpdateCaches out s).2.d.roleTokenCache.Load k = some (.role (fr k))) := by
  rw [fetchTokensAndUpdateCaches_ok out s fa fr ha hr]
  refine ⟨rfl, ?_, ?_, ?_, ?_⟩
  · show (storeAll s.d.accessTokenCache (s.d.accessTokenCache.Keys.map _)).entries.map Prod.fst = _
    rw [storeAll_keys (fun k => Token.access (fa k)), List.map_map]
    rfl
  · show (storeAll s.d.roleTokenCache (s.d.roleTokenCache.Keys.map _)).entries.map Prod.fst = _
    rw [storeAll_keys (fun k => Token.role (fr k)), List.map_map]
    rfl
  · intro k hk
    simp only [TokenCache.Load]
    rw [storeAll_keys (fun k => Token.access (fa k))]
    exact find_map_entries (fun k => Token.access (fa k)) _ k hk
  · intro k hk
    simp only [TokenCache.Load]
    rw [storeAll_keys (fun k => Token.role (fr k))]
    exact find_map_entries (fun k => Token.role (fr k)) _ k hk

/-- Scenario A, first cycle: both access-token targets hold their fetched token, and the
cache has two entries and a positive size. -/
theorem all_fetched_all_committed_witness :
    (fetchTokensAndUpdateCaches issuerUp sampleState).1 = none ∧
    (fetchTokensAndUpdateCaches issuerUp sampleState).2.d.accessTokenCache.Keys = [keyA, keyB] ∧
    (fetchTokensAndUpdateCaches issuerUp sampleState).2.d.accessTokenCache.Load keyB =
      some (.access { domain := "domB", role := "roleB", raw := [97, 116], scope := "roleB",
                      expiry := 1864233600 }) ∧
    (fetchTokensAndUpdateCaches issuerUp sampleState).2.d.accessTokenCache.Len = 2 ∧
    (fetchTokensAndUpdateCaches issuerUp sampleState).2.d.accessTokenCache.Size = 4 :=
  have h := all_fetched_all_committed issuerUp sampleState
    (fetchedAccessToken issuerUp sampleDaemon) (fetchedRoleToken issuerUp sampleDaemon)
    (fun _ _ => rfl) (fun _ _ => rfl)
  ⟨h.1, h.2.1, h.2.2.2.1 keyB (by decide), by decide, by decide⟩

/-- C10 (commit order): in a call of `fetchTokensAndUpdateCaches` that returns nil, the
calls made are all fetches first (access-token keys, then role-token keys, in `Keys()`
order), and only then one `Store` per access-token key in `Keys()` order followed by one
`Store` per role-token key in `Keys()` order, each with the token fetched for that key. -/
theorem commit_order (out : Outcomes) (s : State)
    (h : (fetchTokensAndUpdateCaches out s).1 = none) :
    (fetchTokensAndUpdateCaches out s).2.trace =
      s.trace ++
        (s.d.accessTokenCache.Keys.map Event.fetchAccessToken ++
          s.d.roleTokenCache.Keys.map Event.fetchRoleToken) ++
        ((s.d.accessTokenCache.Keys.map fun k =>
            Event.storeAccessToken k (.access (fetchedAccessToken out s.d k))) ++
          (s.d.roleTokenCache.Keys.map fun k =>
            Event.storeRoleToken k (.role (fetchedRoleToken out s.d k)))) := by
  obtain ⟨ha, hr⟩ := fetchTokensAndUpdateCaches_nil out s h
  rw [fetchTokensAndUpdateCaches_ok out s _ _ ha hr]
  simp only [List.append_assoc]

/-- The successful cycle on `sampleState`: three fetches, then two access-token commits,
then the role-token commit. -/
theorem commit_order_witness :
    (fetchTokensAndUpdateCaches issuerUp sampleState).1 = none ∧
    (fetchTokensAndUpdateCaches issuerUp sampleState).2.trace =
      [] ++ ([keyA, keyB].map Event.fetchAccessToken ++ [keyR].map Event.fetchRoleToken) ++
        (([keyA, keyB].map fun k =>
            Event.storeAccessToken k (.access (fetchedAccessToken issuerUp sampleDaemon k))) ++
          ([keyR].map fun k =>
            Event.storeRoleToken k (.role (fetchedRoleToken issuerUp sampleDaemon k)))) :=
  ⟨by decide, commit_order issuerUp sampleState (by decide)⟩

/-! ## Claims on retry and persistence -/

/-- C3, as stated, fails: with a directory configured, every fetch succeeding and `Save`
failing in every attempt, `updateTokenWithRetry` returns the error of `Save` while the
access-token cache holds the fetched tokens, not the placeholders from before. -/
theorem retry_error_after_commit :
    (updateTokenWithRetry sampleEnv (fun _ => diskFull) 2 sampleState).1 =
      some "no space left on device" ∧
    (updateTokenWithRetry sampleEnv (fun _ => diskFull) 2 sampleState).2.d.accessTokenCache ≠
      sampleState.d.accessTokenCache ∧
    (updateTokenWithRetry sampleEnv (fun _ => diskFull) 2 sampleState).2.d.accessTokenCache.Load
      keyA = some (.access { domain := "domA", role := "roleA", raw := [97, 116],
                             scope := "roleA", expiry := 1864233600 }) := by
  decide

/-- C3, amended (stale state on retry exhaustion): when the file-write step fails in no
attempt (no directory is configured, or `Save` never fails) and `updateTokenWithRetry`
returns an error, then both caches and the directory are as before the call, and the
error is the one with which the fetch phase of the last attempt, attempt number
`retries`, fails on the unchanged daemon. -/
theorem retry_exhausted_keeps_caches (env : Env) (outs : Nat → Outcomes) (retries : Nat)
    (s : State) (e : Err)
    (hw : s.d.tokenDir = "" ∨ ∀ i staged, (outs i).Save staged = none)
    (h : (updateTokenWithRetry env outs retries s).1 = some e) :
    (updateTokenWithRetry env outs retries s).2.d.accessTokenCache = s.d.accessTokenCache ∧
    (updateTokenWithRetry env outs retries s).2.d.roleTokenCache = s.d.roleTokenCache ∧
    (updateTokenWithRetry env outs retries s).2.dir = s.dir ∧
    ∃ s1 : State, s1.d = s.d ∧ s1.dir = s.dir ∧
      (fetchTokensAndUpdateCaches (outs retries) s1).1 = some e := by
  unfold updateTokenWithRetry at h ⊢
  obtain ⟨hd, hdir, s1, h1, h2, h3⟩ := RetryNotify_error_stale env outs e retries 0 s hw h
  rw [Nat.zero_add] at h3
  exact ⟨by rw [hd], by rw [hd], hdir, s1, h1, h2, h3⟩

/-- The issuer rejects `domB` in all three attempts and the disk works: the retry loop
gives up with the issuer's error and the placeholders are still in place. -/
theorem retry_exhausted_keeps_caches_witness :
    (updateTokenWithRetry sampleEnv (fun _ => issuerDownB) 2 sampleState).1 =
      some "zts: 503" ∧
    (updateTokenWithRetry sampleEnv (fun _ => issuerDownB) 2 sampleState).2.d.accessTokenCache =
      sampleState.d.accessTokenCache ∧
    (updateTokenWithRetry sampleEnv (fun _ => issuerDownB) 2 sampleState).2.d.roleTokenCache =
      sampleState.d.roleTokenCache :=
  have h := retry_exhausted_keeps_caches sampleEnv (fun _ => issuerDownB) 2 sampleState
    "zts: 503" (Or.inr fun _ _ => rfl) (by decide)
  ⟨by decide, h.1, h.2.1⟩

/-- C4 fails on the code: after a cycle that committed tokens for `domA` and `domB`,
staging the file of `domB` fails, `Range` stops with that error, and `writeFiles`
still saves: it returns nil and the empty directory now holds the access-token file of
`domA` and the role-token file, without a file for `domB`. -/
theorem staging_failure_still_saves :
    (committedState.d.accessTokenCache.Range
        (stageAccessToken sampleEnv stagingFailsB committedState.d.tokenDir)
        (NewWriter, committedState.trace)).1 =
      some "unable to save access token: permission denied" ∧
    committedState.dir = [] ∧
    (writeFiles sampleEnv stagingFailsB committedState).1 = none ∧
    (writeFiles sampleEnv stagingFailsB committedState).2.dir =
      [⟨"/var/run/athenz/domA:role.roleA.accesstoken", 0o644, [97, 116]⟩,
       ⟨"/var/run/athenz/domA:role.roleA.roletoken", 0o644, [114, 116, 49]⟩] := by
  decide

/-- C5 (file round trip): with a directory configured and no staging error,
`writeFiles` calls `AddBytes` exactly once per access-token entry and then once per
role-token entry, each time with the path `<dir>/<domain>:role.<role>.accesstoken`
(or `.roletoken`) of the entry's token, permission `0644` and exactly its `Raw()`
bytes, and hands those writes to `Save`; when `updateToken` returns nil, the writes
saved are those of the tokens fetched and committed in this cycle, key by key, and
they are what is committed to the directory. -/
theorem files_round_trip (env : Env) (out : Outcomes) (s : State)
    (hdir : s.d.tokenDir ≠ "") (hstage : ∀ p m c, out.AddBytes p m c = none) :
    (writeFiles env out s).2.trace =
      s.trace ++
        (s.d.accessTokenCache.entries.map fun e => Event.addBytes
          ⟨env.filepathJoin s.d.tokenDir (e.2.Domain ++ ":role." ++ e.2.Role ++ ".accesstoken"),
            0o644, e.2.Raw⟩) ++
        (s.d.roleTokenCache.entries.map fun e => Event.addBytes
          ⟨env.filepathJoin s.d.tokenDir (e.2.Domain ++ ":role." ++ e.2.Role ++ ".roletoken"),
            0o644, e.2.Raw⟩) ++
        [Event.save (tokenFiles env s.d.tokenDir (s.d.accessTokenCache.entries.map Prod.snd)
          (s.d.roleTokenCache.entries.map Prod.snd))] ∧
    ((updateToken env out s).1 = none →
      (updateToken env out s).2.trace.getLast? =
        some (Event.save (tokenFiles env s.d.tokenDir
          (s.d.accessTokenCache.Keys.map fun k => Token.access (fetchedAccessToken out s.d k))
          (s.d.roleTokenCache.Keys.map fun k => Token.role (fetchedRoleToken out s.d k)))) ∧
      (updateToken env out s).2.dir =
        (tokenFiles env s.d.tokenDir
          (s.d.accessTokenCache.Keys.map fun k => Token.access (fetchedAccessToken out s.d k))
          (s.d.roleTokenCache.Keys.map fun k => Token.role (fetchedRoleToken out s.d k))).foldl
          (fun acc f => writeFile f acc) s.dir) := by
  constructor
  · rw [writeFiles_staged env out s hdir hstage]
    rfl
  · intro hnil
    rw [updateToken_eq] at hnil ⊢
    cases hres : (fetchTokensAndUpdateCaches out s).1 with
    | some err => rw [hres] at hnil; cases hnil
    | none =>
      simp only [hres] at hnil ⊢
      obtain ⟨ha, hr⟩ := fetchTokensAndUpdateCaches_nil out s hres
      have hok := fetchTokensAndUpdateCaches_ok out s _ _ ha hr
      have hs1d : (fetchTokensAndUpdateCaches out s).2.d.tokenDir = s.d.tokenDir :=
        fetchTokensAndUpdateCaches_tokenDir out s
      have hdir1 : (fetchTokensAndUpdateCaches out s).2.d.tokenDir ≠ "" := by
        rw [hs1d]; exact hdir
      have hA : (fetchTokensAndUpdateCaches out s).2.d.accessTokenCache.entries.map Prod.snd =
          s.d.accessTokenCache.Keys.map fun k => Token.access (fetchedAccessToken out s.d k) := by
        rw [hok]
        show (storeAll s.d.accessTokenCache (s.d.accessTokenCache.Keys.map _)).entries.map
          Prod.snd = _
        rw [storeAll_keys (fun k => Token.access (fetchedAccessToken out s.d k)), List.map_map]
        unfold TokenCache.Keys
        rw [List.map_map]
        rfl
      have hR : (fetchTokensAndUpdateCaches out s).2.d.roleTokenCache.entries.map Prod.snd =
          s.d.roleTokenCache.Keys.map fun k => Token.role (fetchedRoleToken out s.d k) := by
        rw [hok]
        show (storeAll s.d.roleTokenCache (s.d.roleTokenCache.Keys.map _)).entries.map
          Prod.snd = _
        rw [storeAll_keys (fun k => Token.role (fetchedRoleToken out s.d k)), List.map_map]
        unfold TokenCache.Keys
        rw [List.map_map]
        rfl
      have hD : (fetchTokensAndUpdateCaches out s).2.dir = s.dir := by rw [hok]
      rw [writeFiles_staged env out _ hdir1 hstage] at hnil ⊢
      simp only [hs1d, hA, hR, hD] at hnil ⊢
      unfold Writer.Save at hnil ⊢
      split at hnil
      · cases hnil
      · rename_i hsave
        simp only [hsave]
        exact ⟨by simp, trivial⟩

/-- The first `updateToken` of `sampleDaemon`: three files reach the directory, each
holding the raw bytes of the token fetched in that cycle. -/
theorem files_round_trip_witness :
    sampleState.d.tokenDir ≠ "" ∧
    (updateToken sampleEnv issuerUp sampleState).1 = none ∧
    (updateToken sampleEnv issuerUp sampleState).2.dir =
      [⟨"/var/run/athenz/domA:role.roleA.accesstoken", 0o644, [97, 116]⟩,
       ⟨"/var/run/athenz/domB:role.roleB.accesstoken", 0o644, [97, 116]⟩,
       ⟨"/var/run/athenz/domA:role.roleA.roletoken", 0o644, [114, 116, 49]⟩] :=
  have h := (files_round_trip sampleEnv issuerUp sampleState (by decide)
    (fun _ _ _ => rfl)).2 (by decide)
  ⟨by decide, by decide, h.2.trans (by decide)⟩

/-- C6 (no rollback on persist failure): when every fetch of the cycle succeeds and
`writeFiles` then fails with an error, `updateToken` returns that error, and both caches
keep their keys and hold, for every key, the token fetched in this cycle; the directory
is as before. -/
theorem persist_failure_keeps_commit (env : Env) (out : Outcomes) (s : State)
    (fa : CacheKey → AccessToken) (fr : CacheKey → RoleToken) (e : Err)
    (ha : ∀ k ∈ s.d.accessTokenCache.Keys,
      out.fetchAccessToken s.d.ztsClient k s.d.saService = .ok (fa k))
    (hr : ∀ k ∈ s.d.roleTokenCache.Keys, out.fetchRoleToken s.d.ztsClient k = .ok (fr k))
    (hw : (writeFiles env out (fetchTokensAndUpdateCaches out s).2).1 = some e) :
    (updateToken env out s).1 = some e ∧
    (updateToken env out s).2.d.accessTokenCache.Keys = s.d.accessTokenCache.Keys ∧
    (updateToken env out s).2.d.roleTokenCache.Keys = s.d.roleTokenCache.Keys ∧
    (∀ k ∈ s.d.accessTokenCache.Keys,
      (updateToken env out s).2.d.accessTokenCache.Load k = some (.access (fa k))) ∧
    (∀ k ∈ s.d.roleTokenCache.Keys,
      (updateToken env out s).2.d.roleTokenCache.Load k = some (.role (fr k))) ∧
    (updateToken env out s).2.dir = s.dir := by
  have hok := fetchTokensAndUpdateCaches_ok out s fa fr ha hr
  have hnil : (fetchTokensAndUpdateCaches out s).1 = none := by rw [hok]
  have hupd : updateToken env out s = writeFiles env out (fetchTokensAndUpdateCaches out s).2 := by
    rw [updateToken_eq, hnil]
  have hdir := writeFiles_error_dir env out _ e hw
  rw [hupd, writeFiles_d, hdir]
  refine ⟨hw, ?_⟩
  rw [hok]
  refine ⟨?_, ?_, ?_, ?_, rfl⟩
  · show (storeAll s.d.accessTokenCache (s.d.accessTokenCache.Keys.map _)).entries.map Prod.fst = _
    rw [storeAll_keys (fun k => Token.access (fa k)), List.map_map]
    rfl
  · show (storeAll s.d.roleTokenCache (s.d.roleTokenCache.Keys.map _)).entries.map Prod.fst = _
    rw [storeAll_keys (fun k => Token.role (fr k)), List.map_map]
    rfl
  · intro k hk
    simp only [TokenCache.Load]
    rw [storeAll_keys (fun k => Token.access (fa k))]
    exact find_map_entries (fun k => Token.access (fa k)) _ k hk
  · intro k hk
    simp only [TokenCache.Load]
    rw [storeAll_keys (fun k => Token.role (fr k))]
    exact find_map_entries (fun k => Token.role (fr k)) _ k hk

/-- Every fetch succeeds and `Save` fails: `updateToken` returns the disk error, and
`domB` holds its new token. -/
theorem persist_failure_keeps_commit_witness :
    (writeFiles sampleEnv diskFull (fetchTokensAndUpdateCaches diskFull sampleState).2).1 =
      some "no space left on device" ∧
    (updateToken sampleEnv diskFull sampleState).1 = some "no space left on device" ∧
    (updateToken sampleEnv diskFull sampleState).2.d.accessTokenCache.Load keyB =
      some (.access { domain := "domB", role := "roleB", raw := [97, 116], scope := "roleB",
                      expiry := 1864233600 }) :=
  have h := persist_failure_keeps_commit sampleEnv diskFull sampleState
    (fetchedAccessToken diskFull sampleDaemon) (fetchedRoleToken diskFull sampleDaemon)
    "no space left on device" (fun _ _ => rfl) (fun _ _ => rfl) (by decide)
  ⟨by decide, h.1, h.2.2.2.1 keyB (by decide)⟩

/-! ## Claims on construction -/

/-- C8 (zero-target boundary): with `TargetDomainRoles` empty, `newDaemon` skips target
parsing and builds both caches empty, so it fails only if the issuer client cannot be
built; on the daemon it returns, `Keys()` is empty and `Len()`, `Size()` and the four
gauges are 0 for both kinds, and a refresh cycle returns nil and leaves the state,
including the record of calls, as it was: no fetch and no `Store`. -/
theorem zero_targets_noop (env : Env) (idConfig : IdentityConfig) (tt : Nat)
    (h : idConfig.TargetDomainRoles = "") :
    newDaemonCaches env idConfig tt = .ok (NewLockedTokenCache, NewLockedTokenCache) ∧
    (∀ err, newDaemon env idConfig tt = .error err →
      env.newZTSClient idConfig.KeyFile idConfig.CertFile idConfig.ServerCACert
        idConfig.Endpoint = .error err) ∧
    (∀ z, env.newZTSClient idConfig.KeyFile idConfig.CertFile idConfig.ServerCACert
        idConfig.Endpoint = .ok z →
      ∃ d, newDaemon env idConfig tt = .ok d ∧
        d.accessTokenCache.Keys = [] ∧ d.accessTokenCache.Len = 0 ∧
        d.accessTokenCache.Size = 0 ∧
        d.roleTokenCache.Keys = [] ∧ d.roleTokenCache.Len = 0 ∧ d.roleTokenCache.Size = 0 ∧
        gauges d.accessTokenCache d.roleTokenCache =
          [("cached_token_bytes", "accesstoken", 0), ("cached_token_bytes", "roletoken", 0),
           ("cached_token_entries", "accesstoken", 0),
           ("cached_token_entries", "roletoken", 0)] ∧
        ∀ out dir trace,
          fetchTokensAndUpdateCaches out ⟨d, dir, trace⟩ = (none, ⟨d, dir, trace⟩)) := by
  have hc := newDaemonCaches_empty env idConfig tt h
  refine ⟨hc, ?_, ?_⟩
  · intro err herr
    unfold newDaemon at herr
    rw [hc] at herr
    dsimp only at herr
    cases hz : env.newZTSClient idConfig.KeyFile idConfig.CertFile idConfig.ServerCACert
        idConfig.Endpoint with
    | error e => rw [hz] at herr; simpa using herr
    | ok z => rw [hz] at herr; cases herr
  · intro z hz
    have hd : newDaemon env idConfig tt = .ok {
        accessTokenCache := NewLockedTokenCache
        roleTokenCache := NewLockedTokenCache
        ztsClient := z
        saService := env.ServiceAccountToService idConfig.ServiceAccount
        tokenRESTAPI := idConfig.TokenServerRESTAPI
        tokenType := tt
        tokenDir := idConfig.TokenDir
        tokenRefresh := idConfig.TokenRefresh
        tokenExpiryInSecond := env.Seconds idConfig.TokenExpiry
        roleAuthHeader := idConfig.RoleAuthHeader } := by
      unfold newDaemon; rw [hc]; dsimp only; rw [hz]
    refine ⟨_, hd, rfl, rfl, rfl, rfl, rfl, rfl, rfl, ?_⟩
    intro out dir trace
    simp [fetchTokensAndUpdateCaches, TokenCache.Keys, NewLockedTokenCache, fetchAccessTokens,
      fetchRoleTokens, runOps]

/-- The daemon built by `sampleEnv` from a configuration without targets. -/
theorem zero_targets_noop_witness :
    ({} : IdentityConfig).TargetDomainRoles = "" ∧
    newDaemonCaches sampleEnv {} 3 = .ok (NewLockedTokenCache, NewLockedTokenCache) ∧
    ∃ d, newDaemon sampleEnv {} 3 = .ok d ∧ d.accessTokenCache.Keys = [] ∧
      d.roleTokenCache.Keys = [] ∧
      fetchTokensAndUpdateCaches issuerDownB ⟨d, [], []⟩ = (none, ⟨d, [], []⟩) :=
  have h := zero_targets_noop sampleEnv {} 3 rfl
  ⟨rfl, h.1, by
    obtain ⟨d, hd, hk, _, _, hr, _, _, _, hcyc⟩ := h.2.2 ⟨0⟩ rfl
    exact ⟨d, hd, hk, hr, hcyc _ _ _⟩⟩

/-- C7, as stated, fails: the two targets of Scenario A are well-formed and distinct, yet
`newDaemon` returns an error and no daemon when the issuer client cannot be built. -/
theorem placeholders_need_client :
    (configuredTargets scenarioA.TargetDomainRoles).map brokenClientEnv.SplitRoleName =
      [("domA", "roleA"), ("domB", "roleB")].map Except.ok ∧
    newDaemon brokenClientEnv scenarioA 1 = .error "failed to load key pair" :=
  ⟨rfl, rfl⟩

/-- C7, amended (placeholder construction): when every configured target is accepted by
`SplitRoleName`, the resulting (domain, role) pairs are pairwise distinct, and the issuer
client can be built, `newDaemon` returns a daemon in which the cache of each enabled
kind has exactly one entry per target, in order, with key `(domain, role, MaxExpiry = e)`
for access tokens and `(domain, role, MinExpiry = e)` for role tokens and the zero-value
token as value, so `Len()` is the number of targets and `Size()` is 0; the cache of a
kind that is not enabled is empty. -/
theorem placeholders_per_target (env : Env) (idConfig : IdentityConfig) (tt : Nat)
    (pairs : List (String × String)) (z : ZTSClient)
    (hp : (configuredTargets idConfig.TargetDomainRoles).map env.SplitRoleName =
      pairs.map Except.ok)
    (hnd : pairs.Nodup)
    (hz : env.newZTSClient idConfig.KeyFile idConfig.CertFile idConfig.ServerCACert
      idConfig.Endpoint = .ok z) :
    ∃ d, newDaemon env idConfig tt = .ok d ∧
      (tt &&& env.mACCESS_TOKEN ≠ 0 →
        d.accessTokenCache.entries = pairs.map (fun p =>
          ({ Domain := p.1, Role := p.2, MaxExpiry := env.Seconds idConfig.TokenExpiry },
            Token.access {})) ∧
        d.accessTokenCache.Len = pairs.length) ∧
      (tt &&& env.mROLE_TOKEN ≠ 0 →
        d.roleTokenCache.entries = pairs.map (fun p =>
          ({ Domain := p.1, Role := p.2, MinExpiry := env.Seconds idConfig.TokenExpiry },
            Token.role {})) ∧
        d.roleTokenCache.Len = pairs.length) ∧
      (tt &&& env.mACCESS_TOKEN = 0 → d.accessTokenCache.entries = []) ∧
      (tt &&& env.mROLE_TOKEN = 0 → d.roleTokenCache.entries = []) ∧
      d.accessTokenCache.Size = 0 ∧ d.roleTokenCache.Size = 0 := by
  obtain ⟨a, r, hc, ha, hr⟩ := newDaemonCaches_ok env idConfig tt pairs hp hnd
  have hd : newDaemon env idConfig tt = .ok {
      accessTokenCache := a
      roleTokenCache := r
      ztsClient := z
      saService := env.ServiceAccountToService idConfig.ServiceAccount
      tokenRESTAPI := idConfig.TokenServerRESTAPI
      tokenType := tt
      tokenDir := idConfig.TokenDir
      tokenRefresh := idConfig.TokenRefresh
      tokenExpiryInSecond := env.Seconds idConfig.TokenExpiry
      roleAuthHeader := idConfig.RoleAuthHeader } := by
    unfold newDaemon; rw [hc]; dsimp only; rw [hz]
  refine ⟨_, hd, ?_, ?_, ?_, ?_, ?_, ?_⟩
  · intro h
    rw [if_pos h] at ha
    exact ⟨ha, by simp [TokenCache.Len, ha]⟩
  · intro h
    rw [if_pos h] at hr
    exact ⟨hr, by simp [TokenCache.Len, hr]⟩
  · intro h
    rw [if_neg (not_not.2 h)] at ha
    exact ha
  · intro h
    rw [if_neg (not_not.2 h)] at hr
    exact hr
  · show (a.entries.map fun e => e.2.Raw.length).sum = 0
    rw [ha]
    split
    · simp [List.map_map, Function.comp_def, accessPlaceholder, Token.Raw]
    · rfl
  · show (r.entries.map fun e => e.2.Raw.length).sum = 0
    rw [hr]
    split
    · simp [List.map_map, Function.comp_def, rolePlaceholder, Token.Raw]
    · rfl

/-- Scenario A after construction: access tokens only, keys `domA/roleA` and
`domB/roleB`, both placeholders, `Size() == 0`, and an empty role-token cache. -/
theorem placeholders_per_target_witness :
    ∃ d, newDaemon sampleEnv scenarioA 1 = .ok d ∧
      d.accessTokenCache.Keys = [keyA, keyB] ∧
      d.accessTokenCache.entries = [(keyA, .access {}), (keyB, .access {})] ∧
      d.accessTokenCache.Len = 2 ∧ d.accessTokenCache.Size = 0 ∧
      d.roleTokenCache.entries = [] := by
  obtain ⟨d, hd, ha, _, _, hr, hs, _⟩ := placeholders_per_target sampleEnv scenarioA 1
    [("domA", "roleA"), ("domB", "roleB")] ⟨0⟩ rfl (by decide) rfl
  obtain ⟨hent, hlen⟩ := ha (by decide)
  have hent2 : d.accessTokenCache.entries = [(keyA, .access {}), (keyB, .access {})] := by
    rw [hent]; rfl
  exact ⟨d, hd, by unfold TokenCache.Keys; rw [hent2]; rfl, hent2, hlen, hs, hr (by decide)⟩

/-- C9 (malformed targets are fatal at construction): for a non-empty target
specification with an element that `SplitRoleName` rejects, `newDaemon` returns an
`Invalid TargetDomainRoles` error and no daemon, whatever the token kinds, and `Tokend`
with the token server enabled returns that error and a nil channel, leaving directory
and call record untouched: no fetch, no serving endpoint. A leading, trailing or doubled
comma produces the empty element among the elements parsed. -/
theorem malformed_target_fatal (env : Env) (outs : Nat → Outcomes) (retries : Nat)
    (idConfig : IdentityConfig) (dir : List File) (trace : List Event)
    (hne : idConfig.TargetDomainRoles ≠ "")
    (hbad : ∃ dr ∈ stringsSplit idConfig.TargetDomainRoles ',', ∃ err,
      env.SplitRoleName dr = .error err) :
    ∃ err,
      (∀ tt, newDaemon env idConfig tt =
        .error ("Invalid TargetDomainRoles[" ++ idConfig.TargetDomainRoles ++ "]: " ++ err)) ∧
      (idConfig.TokenServerAddr ≠ "" → env.newType idConfig.TokenType ≠ 0 →
        Tokend env outs retries idConfig (some ()) dir trace =
          (.returned
            (some ("Invalid TargetDomainRoles[" ++ idConfig.TargetDomainRoles ++ "]: " ++ err))
            none, dir, trace)) ∧
      (∀ l1 l2, idConfig.TargetDomainRoles.data = l1 ++ ',' :: l2 →
        (l1 = [] ∨ l2 = [] ∨ ∃ l3, l2 = ',' :: l3) →
        "" ∈ stringsSplit idConfig.TargetDomainRoles ',') := by
  have hcond : idConfig.TargetDomainRoles ≠ "" ∨
      (stringsSplit idConfig.TargetDomainRoles ',').length ≠ 1 := Or.inl hne
  have hloop : ∀ tt, ∃ err, newDaemonCaches env idConfig tt =
      .error ("Invalid TargetDomainRoles[" ++ idConfig.TargetDomainRoles ++ "]: " ++ err) := by
    intro tt
    unfold newDaemonCaches
    dsimp only
    rw [if_pos hcond]
    exact newDaemonTargets_error env idConfig tt _ _ _ hbad
  have hsame : ∃ err, ∀ tt, newDaemonCaches env idConfig tt =
      .error ("Invalid TargetDomainRoles[" ++ idConfig.TargetDomainRoles ++ "]: " ++ err) := by
    obtain ⟨err, herr⟩ := hloop 0
    refine ⟨err, fun tt => ?_⟩
    obtain ⟨err1, herr1⟩ := hloop tt
    have key : ∀ (drs : List String) (t1 t2 : Nat) (c1 c2 : TokenCache × TokenCache) (e1 e2 : Err),
        newDaemonTargets env idConfig t1 (env.Seconds idConfig.TokenExpiry) drs c1 = .error e1 →
        newDaemonTargets env idConfig t2 (env.Seconds idConfig.TokenExpiry) drs c2 = .error e2 →
        e1 = e2 := by
      intro drs
      induction drs with
      | nil => intro t1 t2 c1 c2 e1 e2 h1; simp [newDaemonTargets] at h1
      | cons dr rest ih =>
        intro t1 t2 c1 c2 e1 e2 h1 h2
        cases hs : env.SplitRoleName dr with
        | error e0 =>
          simp only [newDaemonTargets, hs, Except.error.injEq] at h1 h2
          rw [← h1, ← h2]
        | ok p =>
          simp only [newDaemonTargets, hs] at h1 h2
          exact ih _ _ _ _ _ _ h1 h2
    unfold newDaemonCaches at herr herr1 ⊢
    dsimp only at herr herr1 ⊢
    rw [if_pos hcond] at herr herr1 ⊢
    rw [herr1, key _ _ _ _ _ _ _ herr1 herr]
  obtain ⟨err, herr⟩ := hsame
  have hnd : ∀ tt, newDaemon env idConfig tt =
      .error ("Invalid TargetDomainRoles[" ++ idConfig.TargetDomainRoles ++ "]: " ++ err) := by
    intro tt
    unfold newDaemon
    rw [herr tt]
  refine ⟨err, hnd, ?_, fun l1 l2 h hpos => stringsSplit_empty_element _ l1 l2 h hpos⟩
  intro haddr htype
  unfold Tokend
  have hstop : ¬ ((some () : Option Unit) = none) := by simp
  rw [if_neg hstop]
  dsimp only
  have hen : ¬ (idConfig.TokenServerAddr = "" ∨ env.newType idConfig.TokenType = 0) := by
    rintro (h | h)
    · exact haddr h
    · exact htype h
  rw [if_neg hen, hnd]

/-- A leading comma in the targets of Scenario A: the empty element is rejected,
construction fails, and `Tokend` returns the error without a channel. -/
theorem malformed_target_fatal_witness :
    leadingComma.TargetDomainRoles ≠ "" ∧
    sampleEnv.SplitRoleName "" = .error "invalid role name: " ∧
    "" ∈ stringsSplit leadingComma.TargetDomainRoles ',' ∧
    newDaemon sampleEnv leadingComma 1 =
      .error "Invalid TargetDomainRoles[,domA:role.roleA]: invalid role name: " ∧
    ∃ err, Tokend sampleEnv (fun _ => issuerUp) 2 leadingComma (some ()) [] [] =
      (.returned
        (some ("Invalid TargetDomainRoles[" ++ leadingComma.TargetDomainRoles ++ "]: " ++ err))
        none, [], []) :=
  have h := malformed_target_fatal sampleEnv (fun _ => issuerUp) 2 leadingComma [] []
    (by decide) ⟨"", by decide, "invalid role name: ", rfl⟩
  ⟨by decide, rfl,
    h.elim fun _ h1 => h1.2.2 [] "domA:role.roleA".data rfl (Or.inl rfl),
    rfl,
    h.elim fun err h1 => ⟨err, h1.2.1 (by decide) (by decide)⟩⟩

end token
